import Mathlib

/-!
# Verification of the qqsync-webui plugin core

A shallow embedding of the two core subsystems of the
`endstone-qqsync-webui-plugin` repository:

* the capability adapter `QQSyncInterface`
  (`src/endstone_qqsync_webui_plugin/api.py`), which soft-calls an
  optionally absent external plugin object, and
* the message log store of `WebUIServer`
  (`src/endstone_qqsync_webui_plugin/server.py`):
  `_save_message_to_file`, `_get_recent_messages_from_file`,
  `_get_message_statistics`.

Python strings are modelled as `List Char`, Python exceptions as
`Except Exn`, Python attribute lookup on the duck-typed external plugin
object as the three-state `Attr` type (absent / present / access raises).
Machine reals (`time.time()`, timestamps) are modelled at second
resolution as `Nat`, matching the second-resolution `[HH:MM:SS]` persisted
format.  Local-timezone conversion `datetime.fromtimestamp` /
`datetime.timestamp` is modelled as plain arithmetic on epoch seconds
(`day = ts / 86400` etc.); the two are mutually inverse in Python exactly
as in the model, which is all the statements below depend on.
-/

/-- Python exception payload (the `str(e)` short message). -/
abbrev Exn := List Char

/-! ## Python string primitives, on `List Char` -/

/-- Python `str.isspace` test for a single char, as used by `str.strip()`. -/
def pyIsSpace (c : Char) : Bool :=
  c = ' ' ∨ c = '\t' ∨ c = '\n' ∨ c = '\r' ∨ c = '\x0b' ∨ c = '\x0c'

/-- Python `s.strip()`: drop leading and trailing whitespace. -/
def pyStrip (s : List Char) : List Char :=
  ((s.dropWhile pyIsSpace).reverse.dropWhile pyIsSpace).reverse

/-- Index of the first occurrence of `sep` in `s` (`str.find`), if any. -/
def pyFindAux (sep : List Char) : List Char → Option Nat
  | [] => none
  | c :: rest =>
    if sep.isPrefixOf (c :: rest) then some 0
    else (pyFindAux sep rest).map (· + 1)

/-- Python `sep in s` substring test. -/
def pyIn (sep s : List Char) : Bool :=
  (pyFindAux sep s).isSome

/-- Python `s.split(sep, 1)` when it produces two parts; `none` models the
    single-part result (whose tuple-unpacking raises `ValueError`). -/
def pySplit1 (sep s : List Char) : Option (List Char × List Char) :=
  match pyFindAux sep s with
  | none => none
  | some i => some (s.take i, s.drop (i + sep.length))

/-- Python `s.split(sep)[0]`: the prefix before the first occurrence of
    `sep`, or all of `s` when `sep` does not occur. -/
def pyBeforeFirst (sep s : List Char) : List Char :=
  match pySplit1 sep s with
  | some (a, _) => a
  | none => s

/-- Python `s.replace(c, '')` for a one-character pattern. -/
def pyRemoveChar (c : Char) (s : List Char) : List Char :=
  s.filter (· ≠ c)

/-- Python `s.lower()` (ASCII case folding; non-ASCII chars unaffected,
    which covers every sender value the code compares). -/
def pyLower (s : List Char) : List Char :=
  s.map Char.toLower

/-- The ASCII digit character of `d % 10`, as produced by `strftime`. -/
def digitCh (d : Nat) : Char :=
  Char.ofNat (48 + d % 10)

/-- Two-digit zero-padded rendering (`%H`, `%M`, `%S` of `strftime`). -/
def pad2 (n : Nat) : List Char :=
  [digitCh (n / 10), digitCh n]

/-- Strict parse of a two-digit decimal field, as `strptime` consumes the
    fields that `strftime` produced. -/
def parse2 : List Char → Option Nat
  | [a, b] =>
    if a.isDigit ∧ b.isDigit then some ((a.toNat - 48) * 10 + (b.toNat - 48))
    else none
  | _ => none

/-- `datetime.strptime(time_str, '%H:%M:%S')`, returning seconds in day:
    three two-digit fields separated by `:`, with `H<24`, `M<60`, `S<60`. -/
def pyParseTime (s : List Char) : Option Nat :=
  match pySplit1 [':'] s with
  | none => none
  | some (hs, rest) =>
    match pySplit1 [':'] rest with
    | none => none
    | some (ms, ss) =>
      match parse2 hs, parse2 ms, parse2 ss with
      | some h, some m, some sec =>
        if h < 24 ∧ m < 60 ∧ sec < 60 then some (h * 3600 + m * 60 + sec)
        else none
      | _, _, _ => none

/-- Python `int(s)` on a decimal string: optional surrounding whitespace,
    optional sign, then a nonempty all-digit body (ASCII digits). -/
def pyInt (s : List Char) : Option Int :=
  let t := pyStrip s
  match t with
  | '-' :: body =>
    if body ≠ [] ∧ body.all Char.isDigit then
      some (-(body.foldl (fun n c => n * 10 + (c.toNat - 48)) 0 : Nat))
    else none
  | '+' :: body =>
    if body ≠ [] ∧ body.all Char.isDigit then
      some ((body.foldl (fun n c => n * 10 + (c.toNat - 48)) 0 : Nat))
    else none
  | body =>
    if body ≠ [] ∧ body.all Char.isDigit then
      some ((body.foldl (fun n c => n * 10 + (c.toNat - 48)) 0 : Nat))
    else none

/-- Python list slice `l[:limit]` for an `int` limit: nonnegative limits
    truncate from the front, negative limits drop `-limit` elements from
    the end. -/
def pySlice {α : Type} (l : List α) (limit : Int) : List α :=
  if 0 ≤ limit then l.take limit.toNat
  else l.take (l.length - (-limit).toNat)

/-! ## Python values and duck-typed attribute access -/

set_option genSizeOfSpec false in
/-- Dynamically-typed Python values flowing through the adapter.  `float`
    carries an exact rational (division results are never inspected by the
    code, only stored, so exactness is immaterial).  `fn` is a nullary
    callable (used for `callable(...)` probes on `is_enabled` /
    `is_connected`). -/
inductive PyVal where
  | none
  | bool (b : Bool)
  | int (n : Int)
  | float (q : Rat)
  | str (s : List Char)
  | list (xs : List PyVal)
  | dict (entries : List (List Char × PyVal))
  | fn (f : Unit → Except Exn PyVal)

/-- Python truthiness (`bool(v)` / `if v:`). -/
def pyTruthy : PyVal → Bool
  | .none => false
  | .bool b => b
  | .int n => n ≠ 0
  | .float q => q ≠ 0
  | .str s => s ≠ []
  | .list xs => !xs.isEmpty
  | .dict xs => !xs.isEmpty
  | .fn _ => true

/-- Python `callable(v)`. -/
def pyCallable : PyVal → Bool
  | .fn _ => true
  | _ => false

/-- Call a Python value with no arguments (`v()`); non-callables raise. -/
def pyCall0 : PyVal → Except Exn PyVal
  | .fn f => f ()
  | _ => .error "TypeError: object is not callable".toList

/-- `d.get(key, default)` on an assoc-list model of a Python dict. -/
def pyGetD {α : Type} : List (List Char × α) → List Char → α → α
  | [], _, dflt => dflt
  | (k', v) :: rest, k, dflt => if k' = k then v else pyGetD rest k dflt

/-- `.get(key, default)` on a `PyVal`; raises `AttributeError` when the
    receiver is not a dict, exactly as Python does. -/
def pyValGet (v : PyVal) (k : List Char) (dflt : PyVal) : Except Exn PyVal :=
  match v with
  | .dict entries => .ok (pyGetD entries k dflt)
  | _ => .error "AttributeError: object has no attribute get".toList

/-- `.strip()` on a `PyVal`; raises on non-strings, as Python does. -/
def pyValStrip (v : PyVal) : Except Exn (List Char) :=
  match v with
  | .str s => .ok (pyStrip s)
  | _ => .error "AttributeError: object has no attribute strip".toList

/-- `d[key] = v` on an assoc-list dict: update in place, else append. -/
def pyDictSet {α : Type} : List (List Char × α) → List Char → α → List (List Char × α)
  | [], k, v => [(k, v)]
  | (k', v') :: rest, k, v =>
    if k' = k then (k, v) :: rest else (k', v') :: pyDictSet rest k v

/-- Python integer addition on `PyVal`s (`sum(...)` over binding data);
    non-numbers raise `TypeError`. -/
def pyAdd (a b : PyVal) : Except Exn PyVal :=
  match a, b with
  | .int x, .int y => .ok (.int (x + y))
  | _, _ => .error "TypeError: unsupported operand type".toList

/-- One attribute slot of the duck-typed external plugin object: the
    attribute can be absent, present with a value, or its access can
    itself raise (e.g. a raising property). -/
inductive Attr (α : Type) where
  | absent
  | val (a : α)
  | raising (msg : Exn)

/-- Plain attribute access `obj.name`: absent attributes raise
    `AttributeError`, raising properties propagate their exception. -/
def Attr.access {α : Type} : Attr α → Except Exn α
  | .absent => .error "AttributeError".toList
  | .val a => .ok a
  | .raising m => .error m

/-- `getattr(obj, name, default)`: absent yields the default; a raising
    access propagates (Python only swallows `AttributeError` raised by the
    lookup itself; we model a raising slot as propagating, the stricter
    choice — every use below sits inside a `try`). -/
def Attr.getD {α : Type} : Attr α → α → Except Exn α
  | .absent, dflt => .ok dflt
  | .val a, _ => .ok a
  | .raising m, _ => .error m

/-- `hasattr(obj, name)`; a raising access propagates (same modelling
    choice as `Attr.getD`). -/
def Attr.has {α : Type} : Attr α → Except Exn Bool
  | .absent => .ok false
  | .val _ => .ok true
  | .raising m => .error m

/-! ## Except helpers modelling `try`/`except` -/

/-- `try: body except Exception as e: return handler(e)` where the handler
    only logs and returns a plain value — the shape of every `except`
    block in `api.py`. -/
def pyTryD {α : Type} (body : Except Exn α) (handler : Exn → α) : α :=
  match body with
  | .ok a => a
  | .error e => handler e

theorem Except.isOk_bind {ε α β : Type} (x : Except ε α) (f : α → Except ε β)
    (hx : x.isOk) (hf : ∀ a, (f a).isOk) : (x.bind f).isOk := by
  cases x with
  | ok a => simpa [Except.bind] using hf a
  | error e => simp [Except.isOk, Except.toBool] at hx

theorem Except.isOk_ok {ε α : Type} (a : α) : (Except.ok a : Except ε α).isOk := rfl

/-! ## The duck-typed external plugin object

Each structure mirrors the attribute surface that `api.py` actually
touches on the external `qqsync_plugin` object.  Method-valued attributes
are `Attr` slots holding functions into `Except Exn` (a call either
returns or raises); non-callable or otherwise broken attributes are
modelled by `Attr.raising` slots or always-throwing functions. -/

/-- `plugin.config_manager`. -/
structure ConfigManager where
  get_config : Attr (List Char → Except Exn PyVal)
  set_config : Attr (List Char → PyVal → Except Exn PyVal)
  save_config : Attr (Unit → Except Exn PyVal)
  save : Attr (Unit → Except Exn PyVal)

/-- `plugin.data_manager.audit_logger`.  `get_logs(limit=..., action_type=...,
    operator=..., days=...)` is modelled positionally; `log_admin_action`'s
    keyword payload does not influence anything the code observes, so the
    call is modelled nullary. -/
structure AuditLogger where
  get_logs : Attr (Int → List Char → List Char → Int → Except Exn PyVal)
  log_admin_action : Attr (Unit → Except Exn PyVal)

/-- `plugin.data_manager`.  `_binding_data` is read with
    `getattr(..., {})`. -/
structure DataManager where
  binding_data : Attr PyVal
  unbind_player_qq : Attr (List Char → List Char → Except Exn PyVal)
  ban_player : Attr (List Char → List Char → List Char → Except Exn PyVal)
  unban_player : Attr (List Char → List Char → Except Exn PyVal)
  audit_logger : Attr AuditLogger

/-- `plugin.ws_client`. -/
structure WsClient where
  is_connected : Attr PyVal
  last_ping : Attr PyVal
  stop : Attr (Unit → Except Exn PyVal)
  connect_forever : Attr (Unit → Except Exn PyVal)

/-- One element of `server.online_players`; reading `.name` can raise. -/
structure GamePlayer where
  name : Except Exn (List Char)

/-- `plugin.server` (the endstone server handle). -/
structure GameServer where
  online_players : Except Exn (List GamePlayer)
  name : Attr PyVal
  max_players : Attr PyVal

/-- One entry of `storage_dir.glob('*.txt')`: the stem is pre-parsed
    (`none` models a stem `datetime.strptime(..., '%Y-%m-%d')` rejects,
    otherwise the calendar-day number), and reading the file either
    yields its lines or raises. -/
structure TxtFile where
  stem : Option Nat
  isFile : Bool
  content : Except Exn (List (List Char))

/-- `plugin.message_storage_dir`, viewed through `pathlib`. -/
structure StorageDir where
  present : Bool
  files : List TxtFile

/-- The external plugin object, with exactly the attributes `api.py`
    probes. -/
structure Plugin where
  is_enabled : Attr PyVal
  name : Attr PyVal
  version : Attr PyVal
  description : Attr PyVal
  ws_client : Attr WsClient
  bot_online : Attr PyVal
  is_bot_online : Attr (Unit → Except Exn PyVal)
  reconnect_attempts : Attr PyVal
  config_manager : Attr ConfigManager
  data_manager : Attr DataManager
  server : Attr (Option GameServer)
  api_send_message : Attr (List Char → Except Exn PyVal)
  message_storage_dir : Attr StorageDir
  execute_server_command : Attr (List Char → Except Exn PyVal)
  loop : Attr PyVal

/-- The ambient runtime: `plugin_manager.get_plugin('qqsync_plugin')`
    (whose result may change over time and may raise) and the
    `asyncio.run_coroutine_threadsafe` scheduling outcome used by
    `restart_websocket`. -/
structure Env where
  get_plugin : Nat → Except Exn (Option Plugin)
  run_coroutine_threadsafe : Except Exn PyVal

/-- The adapter's mutable cache: `self._qqsync_plugin` and
    `self._last_check_time` (initially `None` and `0`). -/
structure AdapterState where
  cached : Option Plugin
  lastCheck : Nat

/-- `self._check_interval = 5`. -/
def checkInterval : Nat := 5

/-- `QQSyncInterface._get_qqsync_plugin` (api.py:23-43).  Returns the
    resolved plugin (or `none`), the updated cache, and whether an
    underlying `plugin_manager.get_plugin` probe was issued.  The `try`
    around the probe is the `match`: a raising probe is caught, leaves
    both cache fields untouched (the assignment never happened) and
    yields `None`. -/
def getQQsyncPlugin (env : Env) (now : Nat) (st : AdapterState) :
    Except Exn (Option Plugin × AdapterState × Bool) :=
  if now - st.lastCheck < checkInterval ∧ st.cached.isSome then
    .ok (st.cached, st, false)
  else
    match env.get_plugin now with
    | .ok p => .ok (p, ⟨p, now⟩, true)
    | .error _ => .ok (none, st, true)

theorem getQQsyncPlugin_isOk (env : Env) (now : Nat) (st : AdapterState) :
    (getQQsyncPlugin env now st).isOk := by
  unfold getQQsyncPlugin
  split
  · rfl
  · cases env.get_plugin now <;> rfl

/-! ## The capability adapter `QQSyncInterface` (api.py)

Each operation is `match`ed on the resolve result exactly as the source
checks `if not plugin:`, and its `try:` body is a separate `...Body`
definition run under `pyTryD` with the source's `except` fallback.
Repeated attribute re-reads of the same (immutable) slot that follow a
successful read are collapsed; a raising slot already raises at the first
read, so this is exact. -/

namespace QQSyncInterface

/-- Body of `get_plugin_info` (api.py:59-73). -/
def getPluginInfoBody (plugin : Plugin) : Except Exn PyVal := do
  let is_enabled ← plugin.is_enabled.getD (.bool true)
  let enabled_status ←
    if pyCallable is_enabled then pyCall0 is_enabled
    else pure (PyVal.bool (pyTruthy is_enabled))
  let nm ← plugin.name.getD (.str "qqsync_plugin".toList)
  let ver ← plugin.version.getD (.str "unknown".toList)
  let desc ← plugin.description.getD (.str "QQSync群服互通插件".toList)
  return .dict [("available".toList, .bool true), ("name".toList, nm),
    ("version".toList, ver), ("enabled".toList, enabled_status),
    ("description".toList, desc)]

/-- `QQSyncInterface.get_plugin_info` (api.py:50-79). -/
def get_plugin_info (env : Env) (now : Nat) (st : AdapterState) :
    Except Exn (PyVal × AdapterState) :=
  match getQQsyncPlugin env now st with
  | .error e => .error e
  | .ok (none, st', _) =>
    .ok (.dict [("available".toList, .bool false),
      ("error".toList, .str "QQSync插件未找到".toList)], st')
  | .ok (some plugin, st', _) =>
    .ok (pyTryD (getPluginInfoBody plugin)
      (fun e => .dict [("available".toList, .bool true), ("error".toList, .str e)]), st')

/-- Body of `get_connection_status` (api.py:92-116). -/
def getConnectionStatusBody (plugin : Plugin) : Except Exn PyVal := do
  let hasWs ← plugin.ws_client.has
  let wsPair ←
    if hasWs then do
      let ws ← plugin.ws_client.access
      let c ← ws.is_connected.getD (.bool false)
      let c ← if pyCallable c then pyCall0 c else pure c
      let lp ← ws.last_ping.getD .none
      pure (c, lp)
    else
      pure (PyVal.bool false, PyVal.none)
  let hasBo ← plugin.bot_online.has
  let bot_online ←
    if hasBo then plugin.bot_online.access
    else do
      let hasFn ← plugin.is_bot_online.has
      if hasFn then do
        let f ← plugin.is_bot_online.access
        f ()
      else pure (PyVal.bool false)
  let ra ← plugin.reconnect_attempts.getD (.int 0)
  return .dict [("websocket_connected".toList, wsPair.1),
    ("bot_online".toList, bot_online), ("last_ping".toList, wsPair.2),
    ("reconnect_attempts".toList, ra)]

/-- `QQSyncInterface.get_connection_status` (api.py:81-125). -/
def get_connection_status (env : Env) (now : Nat) (st : AdapterState) :
    Except Exn (PyVal × AdapterState) :=
  match getQQsyncPlugin env now st with
  | .error e => .error e
  | .ok (none, st', _) =>
    .ok (.dict [("websocket_connected".toList, .bool false),
      ("bot_online".toList, .bool false), ("last_ping".toList, .none),
      ("error".toList, .str "QQSync插件不可用".toList)], st')
  | .ok (some plugin, st', _) =>
    .ok (pyTryD (getConnectionStatusBody plugin)
      (fun e => .dict [("websocket_connected".toList, .bool false),
        ("bot_online".toList, .bool false), ("last_ping".toList, .none),
        ("error".toList, .str e)]), st')

/-- The hard-coded key list of `get_config` (api.py:139-144). -/
def configKeys : List (List Char) :=
  ["napcat_ws".toList, "access_token".toList, "target_group".toList,
   "admins".toList, "enable_qq_to_game".toList, "enable_game_to_qq".toList,
   "force_bind_qq".toList, "sync_group_card".toList,
   "check_group_member".toList, "chat_count_limit".toList,
   "chat_ban_time".toList, "api_qq_enable".toList]

/-- Body of `get_config` (api.py:133-152).  `if key:` is Python
    truthiness, so `None` and the empty string both select the all-keys
    branch. -/
def getConfigBody (plugin : Plugin) (key : Option (List Char)) : Except Exn PyVal := do
  let hasCm ← plugin.config_manager.has
  if hasCm then
    if (match key with | some k => !k.isEmpty | none => false) then do
      let k := key.getD []
      let cm ← plugin.config_manager.access
      let f ← cm.get_config.access
      let v ← f k
      return .dict [(k, v)]
    else do
      let entries ← configKeys.foldlM (fun acc k => do
        let cm ← plugin.config_manager.access
        let f ← cm.get_config.access
        let v ← f k
        pure (pyDictSet acc k v)) []
      return .dict entries
  else
    return .dict []

/-- `QQSyncInterface.get_config` (api.py:127-156). -/
def get_config (env : Env) (now : Nat) (st : AdapterState)
    (key : Option (List Char)) : Except Exn (PyVal × AdapterState) :=
  match getQQsyncPlugin env now st with
  | .error e => .error e
  | .ok (none, st', _) => .ok (.dict [], st')
  | .ok (some plugin, st', _) =>
    .ok (pyTryD (getConfigBody plugin key)
      (fun e => .dict [("error".toList, .str e)]), st')

/-- The trailing persist step shared by `set_config` and `update_config`
    (api.py:171-174 and 208-212): prefer `save_config()`, else `save()`,
    else do nothing. -/
def saveStepCM (cm : ConfigManager) : Except Exn Unit := do
  let hasSave ← cm.save_config.has
  if hasSave then do
    let g ← cm.save_config.access
    let _ ← g ()
    return ()
  else do
    let hasSave2 ← cm.save.has
    if hasSave2 then do
      let g ← cm.save.access
      let _ ← g ()
      return ()
    else return ()

/-- Body of `set_config` (api.py:165-180). -/
def setConfigBody (plugin : Plugin) (key : List Char) (value : PyVal) :
    Except Exn Bool := do
  let hasCm ← plugin.config_manager.has
  if hasCm then do
    let cm ← plugin.config_manager.access
    let f ← cm.set_config.access
    let _ ← f key value
    let _ ← saveStepCM cm
    return true
  else
    return false

/-- `QQSyncInterface.set_config` (api.py:158-184). -/
def set_config (env : Env) (now : Nat) (st : AdapterState)
    (key : List Char) (value : PyVal) : Except Exn (Bool × AdapterState) :=
  match getQQsyncPlugin env now st with
  | .error e => .error e
  | .ok (none, st', _) => .ok (false, st')
  | .ok (some plugin, st', _) =>
    .ok (pyTryD (setConfigBody plugin key value) (fun _ => false), st')

/-- One per-key `config_manager.set_config(key, value)` call
    (api.py:200). -/
def setOneKey (cm : ConfigManager) (k : List Char) (v : PyVal) : Except Exn PyVal := do
  let f ← cm.set_config.access
  f k v

/-- The per-key loop of `update_config` (api.py:198-205): each key's
    `try` marks the key `True` on success and `False` on failure. -/
def updateLoop (cm : ConfigManager) :
    List (List Char × PyVal) → List (List Char × Bool) → List (List Char × Bool)
  | [], results => results
  | (k, v) :: rest, results =>
    match setOneKey cm k v with
    | .ok _ => updateLoop cm rest (pyDictSet results k true)
    | .error _ => updateLoop cm rest (pyDictSet results k false)

/-- Body of `update_config` (api.py:195-223): per-key sets, then one
    trailing persist; a failing persist downgrades every key of the batch
    to `False` (api.py:215-219). -/
def updateConfigBody (plugin : Plugin) (updates : List (List Char × PyVal)) :
    Except Exn (List (List Char × Bool)) := do
  let hasCm ← plugin.config_manager.has
  if hasCm then do
    let cm ← plugin.config_manager.access
    let results := updateLoop cm updates []
    match saveStepCM cm with
    | .ok _ => return results
    | .error _ => return results.map (fun kb => (kb.1, false))
  else
    return updates.map (fun kv => (kv.1, false))

/-- `QQSyncInterface.update_config` (api.py:186-229). -/
def update_config (env : Env) (now : Nat) (st : AdapterState)
    (updates : List (List Char × PyVal)) :
    Except Exn (List (List Char × Bool) × AdapterState) :=
  match getQQsyncPlugin env now st with
  | .error e => .error e
  | .ok (none, st', _) => .ok (updates.map (fun kv => (kv.1, false)), st')
  | .ok (some plugin, st', _) =>
    .ok (pyTryD (updateConfigBody plugin updates)
      (fun _ => updates.map (fun kv => (kv.1, false))), st')

/-- `[p.name for p in plugin.server.online_players]` guarded by
    `hasattr(plugin, 'server') and plugin.server` (api.py:249-251). -/
def onlinePlayerNames (plugin : Plugin) : Except Exn (List (List Char)) := do
  let hasS ← plugin.server.has
  if hasS then do
    let s? ← plugin.server.access
    match s? with
    | none => return []
    | some srv => do
      let ps ← srv.online_players
      ps.mapM (fun p => p.name)
  else return []

/-- One `user_info` dict of `get_users` (api.py:258-303), including the
    derived `is_bound` flag and `binding_status` label. -/
def mkUserInfo (player_name : List Char) (u : List (List Char × PyVal))
    (online : List (List Char)) : Except Exn PyVal := do
  let qqStr ← pyValStrip (pyGetD u "qq".toList (.str []))
  let is_bound := !qqStr.isEmpty
  let base : List (List Char × PyVal) :=
    [("player_name".toList, .str player_name),
     ("name".toList, pyGetD u "name".toList (.str player_name)),
     ("qq_number".toList, pyGetD u "qq".toList (.str [])),
     ("xuid".toList, pyGetD u "xuid".toList (.str [])),
     ("is_online".toList, .bool (online.contains player_name)),
     ("bind_time".toList, pyGetD u "bind_time".toList .none),
     ("unbind_time".toList, pyGetD u "unbind_time".toList .none),
     ("rebind_time".toList, pyGetD u "rebind_time".toList .none),
     ("unbind_by".toList, pyGetD u "unbind_by".toList (.str [])),
     ("unbind_reason".toList, pyGetD u "unbind_reason".toList (.str [])),
     ("original_qq".toList, pyGetD u "original_qq".toList (.str [])),
     ("total_playtime".toList, pyGetD u "total_playtime".toList (.int 0)),
     ("session_count".toList, pyGetD u "session_count".toList (.int 0)),
     ("last_join_time".toList, pyGetD u "last_join_time".toList .none),
     ("last_quit_time".toList, pyGetD u "last_quit_time".toList .none),
     ("is_banned".toList, pyGetD u "is_banned".toList (.bool false)),
     ("ban_time".toList, pyGetD u "ban_time".toList .none),
     ("ban_by".toList, pyGetD u "ban_by".toList (.str [])),
     ("ban_reason".toList, pyGetD u "ban_reason".toList (.str [])),
     ("unban_time".toList, pyGetD u "unban_time".toList .none),
     ("unban_by".toList, pyGetD u "unban_by".toList (.str [])),
     ("is_bound".toList, .bool is_bound)]
  let status : List Char :=
    if is_bound then
      if pyTruthy (pyGetD base "rebind_time".toList .none) then "重新绑定".toList
      else "已绑定".toList
    else
      if pyTruthy (pyGetD base "unbind_time".toList .none) then "已解绑".toList
      else if pyTruthy (pyGetD base "original_qq".toList .none) then "历史绑定".toList
      else "从未绑定".toList
  return .dict (pyDictSet base "binding_status".toList (.str status))

/-- The `for player_name, user_data in bindings.items()` loop of
    `get_users` (api.py:253-305); non-dict entries are skipped. -/
def buildUsers (online : List (List Char)) :
    List (List Char × PyVal) → Except Exn (List PyVal)
  | [] => .ok []
  | (pname, ud) :: rest =>
    match ud with
    | .dict u =>
      match mkUserInfo pname u online with
      | .error e => .error e
      | .ok info =>
        match buildUsers online rest with
        | .error e => .error e
        | .ok tail => .ok (info :: tail)
    | _ => buildUsers online rest

/-- Body of `get_users` (api.py:237-310). -/
def getUsersBody (plugin : Plugin) : Except Exn (List PyVal) := do
  let hasDm ← plugin.data_manager.has
  if hasDm then do
    let dm ← plugin.data_manager.access
    let bindings ← dm.binding_data.getD (.dict [])
    match bindings with
    | .dict entries => do
      let online ← onlinePlayerNames plugin
      buildUsers online entries
    | _ => return []
  else
    return []

/-- `QQSyncInterface.get_users` (api.py:231-314). -/
def get_users (env : Env) (now : Nat) (st : AdapterState) :
    Except Exn (List PyVal × AdapterState) :=
  match getQQsyncPlugin env now st with
  | .error e => .error e
  | .ok (none, st', _) => .ok ([], st')
  | .ok (some plugin, st', _) =>
    .ok (pyTryD (getUsersBody plugin) (fun _ => []), st')

/-- The `user['player_name'] == player_name` probe of `get_user_info`
    (api.py:320); every element produced by `get_users` is a dict with
    that key. -/
def userMatches (player_name : List Char) (u : PyVal) : Bool :=
  match u with
  | .dict entries =>
    match pyGetD entries "player_name".toList .none with
    | .str s => s = player_name
    | _ => false
  | _ => false

/-- `QQSyncInterface.get_user_info` (api.py:316-322). -/
def get_user_info (env : Env) (now : Nat) (st : AdapterState)
    (player_name : List Char) : Except Exn (Option PyVal × AdapterState) :=
  match get_users env now st with
  | .error e => .error e
  | .ok (users, st') => .ok (users.find? (userMatches player_name), st')

/-- Body of `unbind_user` (api.py:330-339). -/
def unbindUserBody (plugin : Plugin) (player_name operator : List Char) :
    Except Exn PyVal := do
  let hasDm ← plugin.data_manager.has
  if hasDm then do
    let dm ← plugin.data_manager.access
    let hasFn ← dm.unbind_player_qq.has
    if hasFn then do
      let f ← dm.unbind_player_qq.access
      f player_name operator
    else return (.bool false)
  else return (.bool false)

/-- `QQSyncInterface.unbind_user` (api.py:324-343). -/
def unbind_user (env : Env) (now : Nat) (st : AdapterState)
    (player_name operator : List Char) : Except Exn (PyVal × AdapterState) :=
  match getQQsyncPlugin env now st with
  | .error e => .error e
  | .ok (none, st', _) => .ok (.bool false, st')
  | .ok (some plugin, st', _) =>
    .ok (pyTryD (unbindUserBody plugin player_name operator)
      (fun _ => .bool false), st')

/-- Body of `ban_user` (api.py:351-360). -/
def banUserBody (plugin : Plugin) (player_name reason operator : List Char) :
    Except Exn PyVal := do
  let hasDm ← plugin.data_manager.has
  if hasDm then do
    let dm ← plugin.data_manager.access
    let hasFn ← dm.ban_player.has
    if hasFn then do
      let f ← dm.ban_player.access
      f player_name operator reason
    else return (.bool false)
  else return (.bool false)

/-- `QQSyncInterface.ban_user` (api.py:345-364). -/
def ban_user (env : Env) (now : Nat) (st : AdapterState)
    (player_name reason operator : List Char) : Except Exn (PyVal × AdapterState) :=
  match getQQsyncPlugin env now st with
  | .error e => .error e
  | .ok (none, st', _) => .ok (.bool false, st')
  | .ok (some plugin, st', _) =>
    .ok (pyTryD (banUserBody plugin player_name reason operator)
      (fun _ => .bool false), st')

/-- Body of `unban_user` (api.py:372-381). -/
def unbanUserBody (plugin : Plugin) (player_name operator : List Char) :
    Except Exn PyVal := do
  let hasDm ← plugin.data_manager.has
  if hasDm then do
    let dm ← plugin.data_manager.access
    let hasFn ← dm.unban_player.has
    if hasFn then do
      let f ← dm.unban_player.access
      f player_name operator
    else return (.bool false)
  else return (.bool false)

/-- `QQSyncInterface.unban_user` (api.py:366-385). -/
def unban_user (env : Env) (now : Nat) (st : AdapterState)
    (player_name operator : List Char) : Except Exn (PyVal × AdapterState) :=
  match getQQsyncPlugin env now st with
  | .error e => .error e
  | .ok (none, st', _) => .ok (.bool false, st')
  | .ok (some plugin, st', _) =>
    .ok (pyTryD (unbanUserBody plugin player_name operator)
      (fun _ => .bool false), st')

/-- Body of `send_message` (api.py:393-404): prefixes `[WebUI] ` and
    forwards to `api_send_message`. -/
def sendMessageBody (plugin : Plugin) (message : List Char) : Except Exn PyVal := do
  let hasFn ← plugin.api_send_message.has
  if hasFn then do
    let f ← plugin.api_send_message.access
    f ("[WebUI] ".toList ++ message)
  else return (.bool false)

/-- `QQSyncInterface.send_message` (api.py:387-408). -/
def send_message (env : Env) (now : Nat) (st : AdapterState)
    (message : List Char) : Except Exn (PyVal × AdapterState) :=
  match getQQsyncPlugin env now st with
  | .error e => .error e
  | .ok (none, st', _) => .ok (.bool false, st')
  | .ok (some plugin, st', _) =>
    .ok (pyTryD (sendMessageBody plugin message) (fun _ => .bool false), st')

/-- `sum(1 for data in bindings.values() if data.get('qq', '').strip())`
    (api.py:431). -/
def countBound : List (List Char × PyVal) → Except Exn Nat
  | [] => .ok 0
  | (_, data) :: rest => do
    let v ← pyValGet data "qq".toList (.str [])
    let s ← pyValStrip v
    let n ← countBound rest
    pure (if s.isEmpty then n else n + 1)

/-- `sum(1 for data in bindings.values() if data.get('is_banned', False))`
    (api.py:433). -/
def countBanned : List (List Char × PyVal) → Except Exn Nat
  | [] => .ok 0
  | (_, data) :: rest => do
    let v ← pyValGet data "is_banned".toList (.bool false)
    let n ← countBanned rest
    pure (if pyTruthy v then n + 1 else n)

/-- `sum(data.get(key, 0) for data in bindings.values())`
    (api.py:436,439). -/
def sumField (entries : List (List Char × PyVal)) (key : List Char) :
    Except Exn PyVal :=
  entries.foldlM (fun acc kv => do
    let v ← pyValGet kv.2 key (.int 0)
    pyAdd acc v) (.int 0)

/-- Python true division of an accumulated total by a positive count
    (api.py:450-451); the result is a float. -/
def pyDiv (a : PyVal) (n : Nat) : Except Exn PyVal :=
  match a with
  | .int x => .ok (.float ((x : Rat) / (n : Rat)))
  | .float q => .ok (.float (q / (n : Rat)))
  | _ => .error "TypeError: unsupported operand type".toList

/-- Body of `get_statistics` (api.py:416-456). -/
def getStatisticsBody (plugin : Plugin) : Except Exn PyVal := do
  let hasDm ← plugin.data_manager.has
  if hasDm then do
    let dm ← plugin.data_manager.access
    let bindings ← dm.binding_data.getD (.dict [])
    match bindings with
    | .dict entries => do
      let online ← onlinePlayerNames plugin
      let total_users := entries.length
      let bound_users ← countBound entries
      let online_users := (entries.filter (fun kv => online.contains kv.1)).length
      let banned_users ← countBanned entries
      let total_playtime ← sumField entries "total_playtime".toList
      let total_sessions ← sumField entries "session_count".toList
      let average_playtime ←
        if 0 < total_users then pyDiv total_playtime total_users
        else pure (.int 0)
      let average_sessions ←
        if 0 < total_users then pyDiv total_sessions total_users
        else pure (.int 0)
      return .dict [("total_users".toList, .int total_users),
        ("bound_users".toList, .int bound_users),
        ("unbound_users".toList, .int (total_users - bound_users)),
        ("online_users".toList, .int online_users),
        ("offline_users".toList, .int (total_users - online_users)),
        ("banned_users".toList, .int banned_users),
        ("total_playtime".toList, total_playtime),
        ("total_sessions".toList, total_sessions),
        ("average_playtime".toList, average_playtime),
        ("average_sessions".toList, average_sessions)]
    | _ => return .dict []
  else
    return .dict []

/-- `QQSyncInterface.get_statistics` (api.py:410-460). -/
def get_statistics (env : Env) (now : Nat) (st : AdapterState) :
    Except Exn (PyVal × AdapterState) :=
  match getQQsyncPlugin env now st with
  | .error e => .error e
  | .ok (none, st', _) => .ok (.dict [], st')
  | .ok (some plugin, st', _) =>
    .ok (pyTryD (getStatisticsBody plugin)
      (fun e => .dict [("error".toList, .str e)]), st')

/-- One decoded message dict of `get_recent_messages` (api.py:544-550). -/
structure ApiMsg where
  timestamp : Nat
  sender : List Char
  content : List Char
  message_type : List Char
  direction : List Char
  deriving Repr, DecidableEq

/-- The `direction_map` of `get_recent_messages` (api.py:526-532). -/
def apiDirectionMap : List (List Char × List Char) :=
  [("QQ→游戏".toList, "qq_to_game".toList),
   ("游戏→QQ".toList, "game_to_qq".toList),
   ("WebUI→游戏".toList, "webui_to_game".toList),
   ("WebUI→QQ".toList, "webui_to_qq".toList),
   ("控制台".toList, "console".toList)]

/-- The anchored regex of `get_recent_messages` (api.py:502),
    `^\[(\d{2}:\d{2}:\d{2})\]\s*\[([^\]]+)\]\s*([^:]+):\s*(.+)$`,
    returning the four groups.  The one backtracking corner the model drops
    is an all-whitespace `([^:]+)` sender group (the regex would match it
    by giving back `\s*` characters); such a line is treated as a parse
    failure.  No line the encoder produces is affected. -/
def apiRegexMatch (l : List Char) :
    Option (List Char × List Char × List Char × List Char) :=
  match l with
  | '[' :: d1 :: d2 :: c1 :: d3 :: d4 :: c2 :: d5 :: d6 :: ']' :: rest =>
    if d1.isDigit ∧ d2.isDigit ∧ c1 = ':' ∧ d3.isDigit ∧ d4.isDigit ∧
        c2 = ':' ∧ d5.isDigit ∧ d6.isDigit then
      let tg := [d1, d2, ':', d3, d4, ':', d5, d6]
      match rest.dropWhile pyIsSpace with
      | '[' :: rest2 =>
        match pySplit1 [']'] rest2 with
        | none => none
        | some (dirg, rest3) =>
          if dirg.isEmpty then none
          else
            let rest4 := rest3.dropWhile pyIsSpace
            match pySplit1 [':'] rest4 with
            | none => none
            | some (sg, rest5) =>
              if sg.isEmpty then none
              else
                let cg := rest5.dropWhile pyIsSpace
                if cg.isEmpty then none
                else some (tg, dirg, sg, cg)
      | _ => none
    else none
  | _ => none

/-- Per-line decoding of `get_recent_messages` (api.py:514-550): regex
    match, timestamp reconstruction from the file's date plus the time
    group, direction mapping with `'unknown'` default, and the derived
    `message_type`. -/
def apiParseLine (day : Nat) (l : List Char) : Option ApiMsg :=
  match apiRegexMatch l with
  | none => none
  | some (tg, dirg, sg, cg) =>
    match pyParseTime tg with
    | none => none
    | some tod =>
      let direction_str := pyRemoveChar ']' (pyRemoveChar '[' dirg)
      let direction := pyGetD apiDirectionMap direction_str "unknown".toList
      let message_type :=
        if direction = "console".toList then "system".toList
        else if ["system".toList, "控制台".toList, "console".toList].contains (pyLower sg)
        then "system".toList
        else "chat".toList
      some ⟨day * 86400 + tod, sg, cg, message_type, direction⟩

/-- The reversed-line loop of `get_recent_messages` (api.py:509-556):
    skip blank lines, append parsed messages, and stop (`true`) once
    `len(messages) >= limit`. -/
def apiScanLines (day : Nat) (limit : Int) :
    List (List Char) → List ApiMsg → List ApiMsg × Bool
  | [], acc => (acc, false)
  | line :: rest, acc =>
    let l := pyStrip line
    if l.isEmpty then apiScanLines day limit rest acc
    else
      match apiParseLine day l with
      | some m =>
        let acc' := acc ++ [m]
        if (acc'.length : Int) ≥ limit then (acc', true)
        else apiScanLines day limit rest acc'
      | none =>
        if (acc.length : Int) ≥ limit then (acc, true)
        else apiScanLines day limit rest acc

/-- The file loop of `get_recent_messages` (api.py:504-563): each file is
    read under its own `try` (failures skip the file), lines are consumed
    in reverse, and collection stops once the limit is reached. -/
def apiScanFiles (limit : Int) :
    List (Nat × Except Exn (List (List Char))) → List ApiMsg → List ApiMsg
  | [], acc => acc
  | (day, content) :: rest, acc =>
    match content with
    | .error _ => apiScanFiles limit rest acc
    | .ok lines =>
      match apiScanLines day limit lines.reverse acc with
      | (acc', true) => acc'
      | (acc', false) =>
        if (acc'.length : Int) ≥ limit then acc'
        else apiScanFiles limit rest acc'

/-- `message_files.sort(key=lambda x: x[1], reverse=True)` (api.py:495):
    a stable descending sort; sorting the `YYYY-MM-DD` stem strings
    lexicographically coincides with sorting the day numbers. -/
def sortFilesDesc (files : List (Nat × Except Exn (List (List Char)))) :
    List (Nat × Except Exn (List (List Char))) :=
  List.insertionSort (fun a b => b.1 ≤ a.1) files

/-- `messages.sort(key=lambda x: x['timestamp'], reverse=True)`
    (api.py:566): a stable descending sort by timestamp. -/
def sortMsgsDesc (msgs : List ApiMsg) : List ApiMsg :=
  List.insertionSort (fun a b => b.timestamp ≤ a.timestamp) msgs

/-- Body of `get_recent_messages` (api.py:468-579). -/
def getRecentMessagesBody (now : Nat) (plugin : Plugin) (limit : Int) :
    Except Exn (List ApiMsg) := do
  let hasDir ← plugin.message_storage_dir.has
  if hasDir then do
    let sd ← plugin.message_storage_dir.access
    if !sd.present then return []
    else do
      let message_files := sd.files.filterMap (fun f =>
        if f.isFile then f.stem.map (fun d => (d, f.content)) else none)
      if message_files.isEmpty then return []
      else do
        let files_to_read := (sortFilesDesc message_files).take 3
        let collected := apiScanFiles limit files_to_read []
        return pySlice (sortMsgsDesc collected) limit
  else
    return [⟨now, "System".toList, "消息历史功能暂未启用".toList,
      "system".toList, "system".toList⟩]

/-- `QQSyncInterface.get_recent_messages` (api.py:462-583). -/
def get_recent_messages (env : Env) (now : Nat) (st : AdapterState)
    (limit : Int) : Except Exn (List ApiMsg × AdapterState) :=
  match getQQsyncPlugin env now st with
  | .error e => .error e
  | .ok (none, st', _) => .ok ([], st')
  | .ok (some plugin, st', _) =>
    .ok (pyTryD (getRecentMessagesBody now plugin limit) (fun _ => []), st')

/-- Body of `get_audit_logs` (api.py:592-601). -/
def getAuditLogsBody (plugin : Plugin) (limit : Int)
    (action_type operator : List Char) (days : Int) : Except Exn PyVal := do
  let hasDm ← plugin.data_manager.has
  if hasDm then do
    let dm ← plugin.data_manager.access
    let hasAl ← dm.audit_logger.has
    if hasAl then do
      let al ← dm.audit_logger.access
      let f ← al.get_logs.access
      f limit action_type operator days
    else return (.list [])
  else return (.list [])

/-- `QQSyncInterface.get_audit_logs` (api.py:585-605). -/
def get_audit_logs (env : Env) (now : Nat) (st : AdapterState)
    (limit : Int) (action_type operator : List Char) (days : Int) :
    Except Exn (PyVal × AdapterState) :=
  match getQQsyncPlugin env now st with
  | .error e => .error e
  | .ok (none, st', _) => .ok (.list [], st')
  | .ok (some plugin, st', _) =>
    .ok (pyTryD (getAuditLogsBody plugin limit action_type operator days)
      (fun _ => .list []), st')

/-- Body of `restart_websocket` (api.py:613-629). -/
def restartWebsocketBody (env : Env) (plugin : Plugin) : Except Exn Bool := do
  let hasWs ← plugin.ws_client.has
  if hasWs then do
    let ws ← plugin.ws_client.access
    let hasStop ← ws.stop.has
    let _ ← if hasStop then do
        let f ← ws.stop.access
        let _ ← f ()
        pure ()
      else pure ()
    let hasCf ← ws.connect_forever.has
    if hasCf then do
      let hasLoop ← plugin.loop.has
      if hasLoop then do
        let cf ← ws.connect_forever.access
        let _ ← cf ()
        let _ ← env.run_coroutine_threadsafe
        return true
      else return false
    else return false
  else return false

/-- `QQSyncInterface.restart_websocket` (api.py:607-633). -/
def restart_websocket (env : Env) (now : Nat) (st : AdapterState) :
    Except Exn (Bool × AdapterState) :=
  match getQQsyncPlugin env now st with
  | .error e => .error e
  | .ok (none, st', _) => .ok (false, st')
  | .ok (some plugin, st', _) =>
    .ok (pyTryD (restartWebsocketBody env plugin) (fun _ => false), st')

/-- Body of `execute_command` (api.py:641-657). -/
def executeCommandBody (plugin : Plugin) (command : List Char) :
    Except Exn PyVal := do
  let hasEx ← plugin.execute_server_command.has
  if hasEx then do
    let f ← plugin.execute_server_command.access
    let result ← f command
    let hasDm ← plugin.data_manager.has
    let _ ←
      if hasDm then do
        let dm ← plugin.data_manager.access
        let hasAl ← dm.audit_logger.has
        if hasAl then do
          let al ← dm.audit_logger.access
          let g ← al.log_admin_action.access
          g ()
        else pure PyVal.none
      else pure PyVal.none
    return .dict [("success".toList, .bool true), ("result".toList, result)]
  else
    return .dict [("success".toList, .bool false),
      ("error".toList, .str "插件不支持命令执行".toList)]

/-- `QQSyncInterface.execute_command` (api.py:635-661). -/
def execute_command (env : Env) (now : Nat) (st : AdapterState)
    (command : List Char) : Except Exn (PyVal × AdapterState) :=
  match getQQsyncPlugin env now st with
  | .error e => .error e
  | .ok (none, st', _) =>
    .ok (.dict [("success".toList, .bool false),
      ("error".toList, .str "QQSync插件不可用".toList)], st')
  | .ok (some plugin, st', _) =>
    .ok (pyTryD (executeCommandBody plugin command)
      (fun e => .dict [("success".toList, .bool false),
        ("error".toList, .str e)]), st')

/-- The `plugin.server` block of `get_server_info` (api.py:672-679). -/
def getServerInfoPart1 (plugin : Plugin) : Except Exn (List (List Char × PyVal)) := do
  let hasS ← plugin.server.has
  if hasS then do
    let s? ← plugin.server.access
    match s? with
    | none => return []
    | some srv => do
      let ps ← srv.online_players
      let names ← ps.mapM (fun p => p.name)
      let nm ← srv.name.getD (.str "Unknown".toList)
      let mx ← srv.max_players.getD (.int 0)
      return [("online_players_count".toList, .int ps.length),
              ("online_players".toList, .list (names.map .str)),
              ("server_name".toList, nm),
              ("max_players".toList, mx)]
  else return []

/-- `QQSyncInterface.get_server_info` (api.py:663-692).  The nested
    `self.get_users()` / `self.get_connection_status()` /
    `self.get_plugin_info()` calls re-resolve through the cache, so the
    adapter state is threaded through them.  In the `except` branches the
    model returns the state reached before the failing step; the nested
    operations in fact never raise (proved below), so only the first
    branch's rollback is reachable, and it is exact. -/
def get_server_info (env : Env) (now : Nat) (st : AdapterState) :
    Except Exn (PyVal × AdapterState) :=
  match getQQsyncPlugin env now st with
  | .error e => .error e
  | .ok (none, st1, _) => .ok (.dict [], st1)
  | .ok (some plugin, st1, _) =>
    match getServerInfoPart1 plugin with
    | .error e => .ok (.dict [("error".toList, .str e)], st1)
    | .ok info1 =>
      match get_users env now st1 with
      | .error e => .ok (.dict [("error".toList, .str e)], st1)
      | .ok (users, st2) =>
        match get_connection_status env now st2 with
        | .error e => .ok (.dict [("error".toList, .str e)], st2)
        | .ok (cs, st3) =>
          match get_plugin_info env now st3 with
          | .error e => .ok (.dict [("error".toList, .str e)], st3)
          | .ok (pinfo, st4) =>
            .ok (.dict (info1 ++
              [("bound_users_count".toList, .int users.length),
               ("connection_status".toList, cs),
               ("plugin_info".toList, pinfo)]), st4)

end QQSyncInterface

/-! ## The message log store (server.py) -/

namespace WebUIServer

/-- One message record as handled by `_save_message_to_file` and
    `_get_recent_messages_from_file`: epoch-second timestamp, sender,
    content, and the direction value string (`'qq_to_game'`, …). -/
structure Msg where
  timestamp : Nat
  sender : List Char
  content : List Char
  direction : List Char
  deriving Repr, DecidableEq

/-- The store keyed by calendar-day number: the lines of each existing
    date file, in physical (append) order.  A day that is not a key has
    no file. -/
abbrev FS := List (Nat × List (List Char))

/-- The encoder's `direction_map` (server.py:1095-1102); values carry
    their own brackets. -/
def directionMapEnc : List (List Char × List Char) :=
  [("qq_to_game".toList, "[QQ→游戏]".toList),
   ("game_to_qq".toList, "[游戏→QQ]".toList),
   ("webui_to_game".toList, "[WebUI→游戏]".toList),
   ("webui_to_qq".toList, "[WebUI→QQ]".toList),
   ("console".toList, "[控制台]".toList),
   ("unknown".toList, "[未知]".toList)]

/-- `direction_map.get(message['direction'], '[未知]')` (server.py:1104). -/
def dirLabel (d : List Char) : List Char :=
  pyGetD directionMapEnc d "[未知]".toList

/-- The bracket-free core of `dirLabel` — what the store decoder hands
    back as the `direction` field. -/
def dirLabelCore (d : List Char) : List Char :=
  pyRemoveChar '[' (pyRemoveChar ']' (dirLabel d))

/-- The encoding step of `_save_message_to_file` (server.py:1086-1105):
    the target day is the local calendar day of the message's own
    timestamp, and the line is
    `[HH:MM:SS] <direction-label> <sender>: <content>\n`. -/
def encodeLine (m : Msg) : Nat × List Char :=
  (m.timestamp / 86400,
   '[' :: pad2 (m.timestamp % 86400 / 3600) ++
   ':' :: pad2 (m.timestamp % 3600 / 60) ++
   ':' :: pad2 (m.timestamp % 60) ++
   ']' :: ' ' :: dirLabel m.direction ++
   ' ' :: m.sender ++ ':' :: ' ' :: m.content ++ ['\n'])

/-- Append one line to the day's file, creating the file if absent
    (`open(file_path, 'a')`, server.py:1108). -/
def fsAppend (fs : FS) (day : Nat) (line : List Char) : FS :=
  match fs with
  | [] => [(day, [line])]
  | (d, lines) :: rest =>
    if d = day then (d, lines ++ [line]) :: rest
    else (d, lines) :: fsAppend rest day line

/-- `WebUIServer._save_message_to_file` (server.py:1081-1112).
    `writeFails` says whether the filesystem write raises.  The function's
    own `try`/`except` catches the failure, logs it, and falls through —
    so the function returns `()` (Python `None`) on both paths, and on
    failure the store is unchanged. -/
def saveMessageToFile (fs : FS) (writeFails : Bool) (m : Msg) :
    Except Exn (Unit × FS) :=
  let (day, line) := encodeLine m
  let body : Except Exn FS :=
    if writeFails then .error "IOError".toList
    else .ok (fsAppend fs day line)
  match body with
  | .ok fs' => .ok ((), fs')
  | .error _ => .ok ((), fs)

/-- Per-line decoding of `_get_recent_messages_from_file`
    (server.py:1131-1143): two `split('] ', 1)`, one `split(': ', 1)`,
    `replace('[', '')` on the first two parts, strict time parsing
    against the file's date, and `.strip()` on sender and content.  Any
    failure (`none`) models the caught per-line exception, which skips
    the line.  Note the decoded `direction` is the raw label text — it is
    not mapped back through any direction map. -/
def decodeLine (day : Nat) (line : List Char) : Option Msg :=
  match pySplit1 "] ".toList line with
  | none => none
  | some (time_part, rest) =>
    let time_str := pyRemoveChar '[' time_part
    match pySplit1 "] ".toList rest with
    | none => none
    | some (direction_part, rest2) =>
      let direction_str := pyRemoveChar '[' direction_part
      match pySplit1 ": ".toList rest2 with
      | none => none
      | some (sender, content) =>
        match pyParseTime time_str with
        | none => none
        | some tod =>
          some ⟨day * 86400 + tod, pyStrip sender, pyStrip content, direction_str⟩

/-- The reversed-line loop of `_get_recent_messages_from_file`
    (server.py:1130-1150): parse failures are skipped with a warning;
    after each successful append `len(messages) >= limit` returns from
    the whole function (`true`). -/
def scanFileLines (day : Nat) (limit : Int) :
    List (List Char) → List Msg → List Msg × Bool
  | [], acc => (acc, false)
  | line :: rest, acc =>
    match decodeLine day line with
    | none => scanFileLines day limit rest acc
    | some m =>
      let acc' := acc ++ [m]
      if (acc'.length : Int) ≥ limit then (acc', true)
      else scanFileLines day limit rest acc'

/-- The day loop of `_get_recent_messages_from_file` (server.py:1121-1152):
    the last seven calendar days, newest first; missing files are
    skipped; an early return propagates. -/
def scanDays (fs : FS) (limit : Int) : List Nat → List Msg → List Msg
  | [], acc => acc
  | day :: rest, acc =>
    match fs.lookup day with
    | none => scanDays fs limit rest acc
    | some lines =>
      match scanFileLines day limit lines.reverse acc with
      | (acc', true) => acc'
      | (acc', false) => scanDays fs limit rest acc'

/-- `WebUIServer._get_recent_messages_from_file` (server.py:1114-1152).
    `today` is the calendar-day number of `datetime.now()`.  Note: no
    re-sort happens after collection — the list is returned in collection
    order. -/
def recentFromFile (fs : FS) (today : Nat) (limit : Int) : List Msg :=
  scanDays fs limit ((List.range 7).map (fun i => today - i)) []

/-- The statistics accumulator of `_get_message_statistics`
    (server.py:1159-1174): the five fixed direction buckets and the 24
    hour buckets (index = hour). -/
structure MsgStats where
  total : Nat
  daily : List (Nat × Nat)
  qq_to_game : Nat
  game_to_qq : Nat
  webui_to_game : Nat
  console : Nat
  unknown : Nat
  hourly : List Nat
  deriving Repr, DecidableEq

/-- The all-zero initial statistics (server.py:1159-1174). -/
def initStats : MsgStats :=
  ⟨0, [], 0, 0, 0, 0, 0, List.replicate 24 0⟩

/-- The direction-tag branch of `_get_message_statistics`
    (server.py:1205-1214): substring containment tests in source order,
    falling through to `unknown`. -/
def bumpDir (s : MsgStats) (line : List Char) : MsgStats :=
  if pyIn "[QQ→游戏]".toList line then {s with qq_to_game := s.qq_to_game + 1}
  else if pyIn "[游戏→QQ]".toList line then {s with game_to_qq := s.game_to_qq + 1}
  else if pyIn "[WebUI→游戏]".toList line then {s with webui_to_game := s.webui_to_game + 1}
  else if pyIn "[控制台]".toList line then {s with console := s.console + 1}
  else {s with unknown := s.unknown + 1}

/-- The tail of the per-line `try` block of `_get_message_statistics`
    once an hour string was split out (server.py:1198-1214): a failing
    `int()` (`ValueError`) or an hour outside `00`-`23` (`KeyError` on
    the hour-bucket dict) aborts the block before the direction count; a
    valid hour bumps its bucket and then the direction bucket. -/
def hourThenDir (s : MsgStats) (line : List Char) : Option Int → MsgStats
  | none => s
  | some h =>
    if 0 ≤ h ∧ h < 24 then
      bumpDir {s with hourly := s.hourly.set h.toNat (s.hourly.getD h.toNat 0 + 1)} line
    else s

/-- Per-line analysis of `_get_message_statistics` (server.py:1192-1217).
    `total_messages` always counts the line; the bracket guard selects
    the `try` block; with no `':'` in the leading field the hour is
    skipped and the direction still counted. -/
def statLine (s : MsgStats) (line : List Char) : MsgStats :=
  let s := {s with total := s.total + 1}
  if pyIn "[".toList line ∧ pyIn "]".toList line then
    let time_match := pyRemoveChar '[' (pyBeforeFirst "]".toList line)
    if pyIn ":".toList time_match then
      hourThenDir s line (pyInt (pyBeforeFirst ":".toList time_match))
    else bumpDir s line
  else s

/-- `d[key] = v` on the day-keyed `daily_stats` dict (server.py:1219). -/
def pyDictSetNat (xs : List (Nat × Nat)) (k v : Nat) : List (Nat × Nat) :=
  match xs with
  | [] => [(k, v)]
  | (k', v') :: rest =>
    if k' = k then (k, v) :: rest else (k', v') :: pyDictSetNat rest k v

/-- The day loop of `_get_message_statistics` (server.py:1180-1220):
    every calendar date from `today - (days-1)` to `today`, counting a
    missing file as zero lines. -/
def statDays (fs : FS) : List Nat → MsgStats → MsgStats
  | [], s => s
  | day :: rest, s =>
    match fs.lookup day with
    | none => statDays fs rest {s with daily := pyDictSetNat s.daily day 0}
    | some lines =>
      let s' := lines.foldl statLine s
      statDays fs rest {s' with daily := pyDictSetNat s'.daily day lines.length}

/-- `WebUIServer._get_message_statistics` (server.py:1154-1231); `days`
    iterates the inclusive range ending today (an empty range when
    `days = 0`). -/
def messageStatistics (fs : FS) (today : Nat) (days : Nat) : MsgStats :=
  statDays fs ((List.range days).map (fun i => today - (days - 1) + i)) initStats

/-- Sum of the five direction buckets. -/
def dirSum (s : MsgStats) : Nat :=
  s.qq_to_game + s.game_to_qq + s.webui_to_game + s.console + s.unknown

/-- Sum of the 24 hour buckets. -/
def hourSum (s : MsgStats) : Nat :=
  s.hourly.sum

end WebUIServer

/-! ## Soft-call lemmas (claim C1 infrastructure) -/

theorem Except.ne_error_of_isOk {ε α : Type} {x : Except ε α} (h : x.isOk)
    (e : ε) : x ≠ .error e := by
  intro hc
  rw [hc] at h
  simp [Except.isOk, Except.toBool] at h

theorem resolve_not_error (env : Env) (now : Nat) (st : AdapterState) (e : Exn) :
    getQQsyncPlugin env now st ≠ .error e :=
  Except.ne_error_of_isOk (getQQsyncPlugin_isOk env now st) e

namespace QQSyncInterface

theorem get_plugin_info_isOk (env : Env) (now : Nat) (st : AdapterState) :
    (get_plugin_info env now st).isOk := by
  unfold get_plugin_info
  split
  · next e heq => exact absurd heq (resolve_not_error env now st e)
  · rfl
  · rfl

theorem get_connection_status_isOk (env : Env) (now : Nat) (st : AdapterState) :
    (get_connection_status env now st).isOk := by
  unfold get_connection_status
  split
  · next e heq => exact absurd heq (resolve_not_error env now st e)
  · rfl
  · rfl

theorem get_config_isOk (env : Env) (now : Nat) (st : AdapterState)
    (key : Option (List Char)) : (get_config env now st key).isOk := by
  unfold get_config
  split
  · next e heq => exact absurd heq (resolve_not_error env now st e)
  · rfl
  · rfl

theorem set_config_isOk (env : Env) (now : Nat) (st : AdapterState)
    (key : List Char) (value : PyVal) : (set_config env now st key value).isOk := by
  unfold set_config
  split
  · next e heq => exact absurd heq (resolve_not_error env now st e)
  · rfl
  · rfl

theorem update_config_isOk (env : Env) (now : Nat) (st : AdapterState)
    (updates : List (List Char × PyVal)) : (update_config env now st updates).isOk := by
  unfold update_config
  split
  · next e heq => exact absurd heq (resolve_not_error env now st e)
  · rfl
  · rfl

theorem get_users_isOk (env : Env) (now : Nat) (st : AdapterState) :
    (get_users env now st).isOk := by
  unfold get_users
  split
  · next e heq => exact absurd heq (resolve_not_error env now st e)
  · rfl
  · rfl

theorem get_user_info_isOk (env : Env) (now : Nat) (st : AdapterState)
    (player_name : List Char) : (get_user_info env now st player_name).isOk := by
  unfold get_user_info
  split
  · next e heq => exact absurd heq (Except.ne_error_of_isOk (get_users_isOk env now st) e)
  · rfl

theorem unbind_user_isOk (env : Env) (now : Nat) (st : AdapterState)
    (player_name operator : List Char) :
    (unbind_user env now st player_name operator).isOk := by
  unfold unbind_user
  split
  · next e heq => exact absurd heq (resolve_not_error env now st e)
  · rfl
  · rfl

theorem ban_user_isOk (env : Env) (now : Nat) (st : AdapterState)
    (player_name reason operator : List Char) :
    (ban_user env now st player_name reason operator).isOk := by
  unfold ban_user
  split
  · next e heq => exact absurd heq (resolve_not_error env now st e)
  · rfl
  · rfl

theorem unban_user_isOk (env : Env) (now : Nat) (st : AdapterState)
    (player_name operator : List Char) :
    (unban_user env now st player_name operator).isOk := by
  unfold unban_user
  split
  · next e heq => exact absurd heq (resolve_not_error env now st e)
  · rfl
  · rfl

theorem send_message_isOk (env : Env) (now : Nat) (st : AdapterState)
    (message : List Char) : (send_message env now st message).isOk := by
  unfold send_message
  split
  · next e heq => exact absurd heq (resolve_not_error env now st e)
  · rfl
  · rfl

theorem get_statistics_isOk (env : Env) (now : Nat) (st : AdapterState) :
    (get_statistics env now st).isOk := by
  unfold get_statistics
  split
  · next e heq => exact absurd heq (resolve_not_error env now st e)
  · rfl
  · rfl

theorem get_recent_messages_isOk (env : Env) (now : Nat) (st : AdapterState)
    (limit : Int) : (get_recent_messages env now st limit).isOk := by
  unfold get_recent_messages
  split
  · next e heq => exact absurd heq (resolve_not_error env now st e)
  · rfl
  · rfl

theorem get_audit_logs_isOk (env : Env) (now : Nat) (st : AdapterState)
    (limit : Int) (action_type operator : List Char) (days : Int) :
    (get_audit_logs env now st limit action_type operator days).isOk := by
  unfold get_audit_logs
  split
  · next e heq => exact absurd heq (resolve_not_error env now st e)
  · rfl
  · rfl

theorem restart_websocket_isOk (env : Env) (now : Nat) (st : AdapterState) :
    (restart_websocket env now st).isOk := by
  unfold restart_websocket
  split
  · next e heq => exact absurd heq (resolve_not_error env now st e)
  · rfl
  · rfl

theorem execute_command_isOk (env : Env) (now : Nat) (st : AdapterState)
    (command : List Char) : (execute_command env now st command).isOk := by
  unfold execute_command
  split
  · next e heq => exact absurd heq (resolve_not_error env now st e)
  · rfl
  · rfl

theorem get_server_info_isOk (env : Env) (now : Nat) (st : AdapterState) :
    (get_server_info env now st).isOk := by
  unfold get_server_info
  split
  · next e heq => exact absurd heq (resolve_not_error env now st e)
  · rfl
  · repeat first | rfl | split

end QQSyncInterface

/-! ## Claim C1 -/

/-- C1: Every adapter operation (`resolve` = `_get_qqsync_plugin`,
    `get_plugin_info`, `get_connection_status`, `get_config`, `set_config`,
    `update_config`, `get_users`, `get_user_info`, `unbind_user`,
    `ban_user`, `unban_user`, `send_message`, `get_statistics`,
    `get_recent_messages`, `get_audit_logs`, `restart_websocket`,
    `execute_command`, `get_server_info`) is a soft call: for every state
    of the external plugin object — absent (resolve returns `None`), or
    present with any subset of the expected attributes (including raising
    attribute slots and raising method calls, all quantified inside
    `Env`/`AdapterState`/`Plugin`) — the operation returns a value
    (`Except.isOk`) and never propagates an exception to its caller. -/
theorem C1_soft_calls (env : Env) (now : Nat) (st : AdapterState)
    (key : Option (List Char))
    (ckey player_name operator reason message command action_type : List Char)
    (value : PyVal) (updates : List (List Char × PyVal)) (limit days : Int) :
    (getQQsyncPlugin env now st).isOk ∧
    (QQSyncInterface.get_plugin_info env now st).isOk ∧
    (QQSyncInterface.get_connection_status env now st).isOk ∧
    (QQSyncInterface.get_config env now st key).isOk ∧
    (QQSyncInterface.set_config env now st ckey value).isOk ∧
    (QQSyncInterface.update_config env now st updates).isOk ∧
    (QQSyncInterface.get_users env now st).isOk ∧
    (QQSyncInterface.get_user_info env now st player_name).isOk ∧
    (QQSyncInterface.unbind_user env now st player_name operator).isOk ∧
    (QQSyncInterface.ban_user env now st player_name reason operator).isOk ∧
    (QQSyncInterface.unban_user env now st player_name operator).isOk ∧
    (QQSyncInterface.send_message env now st message).isOk ∧
    (QQSyncInterface.get_statistics env now st).isOk ∧
    (QQSyncInterface.get_recent_messages env now st limit).isOk ∧
    (QQSyncInterface.get_audit_logs env now st limit action_type operator days).isOk ∧
    (QQSyncInterface.restart_websocket env now st).isOk ∧
    (QQSyncInterface.execute_command env now st command).isOk ∧
    (QQSyncInterface.get_server_info env now st).isOk :=
  ⟨getQQsyncPlugin_isOk env now st,
   QQSyncInterface.get_plugin_info_isOk env now st,
   QQSyncInterface.get_connection_status_isOk env now st,
   QQSyncInterface.get_config_isOk env now st key,
   QQSyncInterface.set_config_isOk env now st ckey value,
   QQSyncInterface.update_config_isOk env now st updates,
   QQSyncInterface.get_users_isOk env now st,
   QQSyncInterface.get_user_info_isOk env now st player_name,
   QQSyncInterface.unbind_user_isOk env now st player_name operator,
   QQSyncInterface.ban_user_isOk env now st player_name reason operator,
   QQSyncInterface.unban_user_isOk env now st player_name operator,
   QQSyncInterface.send_message_isOk env now st message,
   QQSyncInterface.get_statistics_isOk env now st,
   QQSyncInterface.get_recent_messages_isOk env now st limit,
   QQSyncInterface.get_audit_logs_isOk env now st limit action_type operator days,
   QQSyncInterface.restart_websocket_isOk env now st,
   QQSyncInterface.execute_command_isOk env now st command,
   QQSyncInterface.get_server_info_isOk env now st⟩

/-! ## Claim C8 -/

/-- A plugin object with every attribute absent (the minimal truthy
    external object). -/
def pluginStub : Plugin :=
  ⟨.absent, .absent, .absent, .absent, .absent, .absent, .absent, .absent,
   .absent, .absent, .absent, .absent, .absent, .absent, .absent⟩

/-- A runtime in which `plugin_manager.get_plugin` always reports the
    external plugin as missing. -/
def envUnavailable : Env := ⟨fun _ => .ok none, .ok .none⟩

/-- A runtime in which `plugin_manager.get_plugin` always finds the
    external plugin. -/
def envAvailable : Env := ⟨fun _ => .ok (some pluginStub), .ok .none⟩

/-- C8 counterexample: when the first probe reports the plugin as
    missing (an UNAVAILABLE outcome), a second `resolve` issued one
    second later — well inside the 5-second TTL window — issues a second
    underlying probe (both probe flags are `true`): an UNAVAILABLE result
    is *not* cached, because the cache hit requires a truthy
    `self._qqsync_plugin` (api.py:29). -/
theorem C8_cex :
    getQQsyncPlugin envUnavailable 100 ⟨none, 0⟩
      = .ok (none, ⟨none, 100⟩, true) ∧
    getQQsyncPlugin envUnavailable 101 ⟨none, 100⟩
      = .ok (none, ⟨none, 101⟩, true) :=
  ⟨rfl, rfl⟩

/-- C8 amended: a second `resolve` call within the 5-second TTL window
    triggers no underlying probe *provided the first probe succeeded*
    (returned an available plugin); an UNAVAILABLE (`None`) result is not
    cached — whenever the cache holds `None`, every call probes; and a
    call issued at least 5 seconds after the last recorded check always
    probes anew. -/
theorem C8_amended (env : Env) (t0 t1 : Nat) (st0 st1 : AdapterState) (p : Plugin)
    (h1 : getQQsyncPlugin env t0 st0 = .ok (some p, st1, true))
    (hle : t0 ≤ t1) (hlt : t1 - t0 < 5) :
    getQQsyncPlugin env t1 st1 = .ok (some p, st1, false) ∧
    (∀ now stx, 5 ≤ now - stx.lastCheck →
      (getQQsyncPlugin env now stx).map (fun r => r.2.2) = .ok true) ∧
    (∀ now stx, stx.cached = none →
      (getQQsyncPlugin env now stx).map (fun r => r.2.2) = .ok true) := by
  have hst : st1 = ⟨some p, t0⟩ := by
    unfold getQQsyncPlugin at h1
    split at h1
    · simp at h1
    · cases henv : env.get_plugin t0 with
      | ok q =>
        rw [henv] at h1
        simp only [Except.ok.injEq, Prod.mk.injEq] at h1
        obtain ⟨hq, hst', -⟩ := h1
        subst hq
        exact hst'.symm
      | error e =>
        rw [henv] at h1
        simp at h1
  refine ⟨?_, ?_, ?_⟩
  · subst hst
    unfold getQQsyncPlugin
    rw [if_pos ⟨by simpa [checkInterval] using hlt, rfl⟩]
  · intro now stx hge
    unfold getQQsyncPlugin
    rw [if_neg (by simp [checkInterval]; omega)]
    cases env.get_plugin now <;> rfl
  · intro now stx hcn
    unfold getQQsyncPlugin
    rw [if_neg (by simp [hcn])]
    cases env.get_plugin now <;> rfl

/-- C8 witness: a successful probe at `t = 10` followed by a call at
    `t = 12` hits the cache and issues no probe. -/
theorem C8_amended_witness :
    getQQsyncPlugin envAvailable 12 ⟨some pluginStub, 10⟩
      = .ok (some pluginStub, ⟨some pluginStub, 10⟩, false) :=
  (C8_amended envAvailable 10 12 ⟨none, 0⟩ ⟨some pluginStub, 10⟩ pluginStub
    rfl (by omega) (by omega)).1

/-! ## Claim C3 -/

/-- C3 counterexample: with the external plugin unresolvable,
    `get_config` returns the bare empty dict `{}` — the operation's zero
    value with *no* unavailable marker of any kind (api.py:130-131) — so
    an unavailable plugin is indistinguishable from a genuinely empty
    configuration. -/
theorem C3_cex :
    QQSyncInterface.get_config envUnavailable 100 ⟨none, 0⟩ none
      = .ok (.dict [], ⟨none, 100⟩) := rfl

/-- C3 amended: when the external component is unavailable, each read
    operation returns its zero value, but only `get_connection_status`
    attaches an explicit unavailable marker (an `'error'` entry);
    `get_config`, `get_users`, `get_statistics`, `get_audit_logs` and
    `get_server_info` return the bare zero value (`{}` / `[]`) with no
    marker. -/
theorem C3_amended (env : Env) (now : Nat) (st : AdapterState)
    (henv : env.get_plugin now = .ok none) (hc : st.cached = none) :
    QQSyncInterface.get_config env now st none = .ok (.dict [], ⟨none, now⟩) ∧
    QQSyncInterface.get_users env now st = .ok ([], ⟨none, now⟩) ∧
    QQSyncInterface.get_statistics env now st = .ok (.dict [], ⟨none, now⟩) ∧
    QQSyncInterface.get_audit_logs env now st 100 [] [] 30
      = .ok (.list [], ⟨none, now⟩) ∧
    QQSyncInterface.get_server_info env now st = .ok (.dict [], ⟨none, now⟩) ∧
    QQSyncInterface.get_connection_status env now st
      = .ok (.dict [("websocket_connected".toList, .bool false),
          ("bot_online".toList, .bool false), ("last_ping".toList, .none),
          ("error".toList, .str "QQSync插件不可用".toList)], ⟨none, now⟩) := by
  have hres : getQQsyncPlugin env now st = .ok (none, ⟨none, now⟩, true) := by
    unfold getQQsyncPlugin
    rw [if_neg (by simp [hc]), henv]
  refine ⟨?_, ?_, ?_, ?_, ?_, ?_⟩
  · unfold QQSyncInterface.get_config
    rw [hres]
  · unfold QQSyncInterface.get_users
    rw [hres]
  · unfold QQSyncInterface.get_statistics
    rw [hres]
  · unfold QQSyncInterface.get_audit_logs
    rw [hres]
  · unfold QQSyncInterface.get_server_info
    rw [hres]
  · unfold QQSyncInterface.get_connection_status
    rw [hres]

/-- C3 witness: the amended statement instantiated at a concrete
    unavailable runtime. -/
theorem C3_amended_witness :
    QQSyncInterface.get_config envUnavailable 50 ⟨none, 0⟩ none
      = .ok (.dict [], ⟨none, 50⟩) ∧
    QQSyncInterface.get_users envUnavailable 50 ⟨none, 0⟩ = .ok ([], ⟨none, 50⟩) :=
  ⟨(C3_amended envUnavailable 50 ⟨none, 0⟩ rfl rfl).1,
   (C3_amended envUnavailable 50 ⟨none, 0⟩ rfl rfl).2.1⟩

/-! ## Claim C9 -/

/-- C9 counterexample: `_save_message_to_file` swallows a failing
    filesystem write (server.py:1111-1112 logs and falls through), so the
    caller-visible result of a failed append is literally the same `None`
    as a successful one, while the message is silently lost (the store is
    unchanged).  No explicit I/O failure result exists. -/
theorem C9_cex :
    WebUIServer.saveMessageToFile [] true
        ⟨36000, "A".toList, "x".toList, "console".toList⟩
      = .ok ((), []) ∧
    (WebUIServer.saveMessageToFile [] true
        ⟨36000, "A".toList, "x".toList, "console".toList⟩).map Prod.fst
      = (WebUIServer.saveMessageToFile [] false
        ⟨36000, "A".toList, "x".toList, "console".toList⟩).map Prod.fst :=
  ⟨rfl, rfl⟩

/-- C9 amended: `_save_message_to_file` catches every write failure,
    logs it, and returns (`None`) exactly as on success; on failure the
    message is not persisted (the store is unchanged), and the returned
    value carries no failure indication the caller could observe. -/
theorem C9_amended (fs : WebUIServer.FS) (m : WebUIServer.Msg) :
    WebUIServer.saveMessageToFile fs true m = .ok ((), fs) ∧
    WebUIServer.saveMessageToFile fs false m
      = .ok ((), WebUIServer.fsAppend fs (WebUIServer.encodeLine m).1
          (WebUIServer.encodeLine m).2) ∧
    (WebUIServer.saveMessageToFile fs true m).map Prod.fst
      = (WebUIServer.saveMessageToFile fs false m).map Prod.fst := by
  refine ⟨rfl, rfl, rfl⟩

/-! ## Claims C2 and C10: `update_config` batch semantics -/

theorem pyDictSet_append {α : Type} (xs : List (List Char × α)) (k : List Char)
    (v : α) (h : ∀ p ∈ xs, p.1 ≠ k) : pyDictSet xs k v = xs ++ [(k, v)] := by
  induction xs with
  | nil => rfl
  | cons hd tl ih =>
    obtain ⟨k', v'⟩ := hd
    have hk : k' ≠ k := h (k', v') (List.mem_cons_self _ _)
    simp only [pyDictSet, if_neg hk, List.cons_append, List.cons.injEq, true_and]
    exact ih (fun p hp => h p (List.mem_cons_of_mem _ hp))

/-- Key-set preservation through the per-key loop of `update_config`:
    with pairwise distinct keys, fresh relative to the accumulator, each
    iteration appends one entry, so the result's keys are the
    accumulator's keys followed by the batch keys — independently of
    which sets succeed or fail. -/
theorem updateLoop_keys (cm : ConfigManager)
    (updates : List (List Char × PyVal)) (results : List (List Char × Bool))
    (hfresh : ∀ p ∈ results, ∀ kv ∈ updates, p.1 ≠ kv.1)
    (hnd : (updates.map Prod.fst).Nodup) :
    (QQSyncInterface.updateLoop cm updates results).map Prod.fst
      = results.map Prod.fst ++ updates.map Prod.fst := by
  induction updates generalizing results with
  | nil => simp [QQSyncInterface.updateLoop]
  | cons hd tl ih =>
    obtain ⟨k, v⟩ := hd
    simp only [List.map_cons, List.nodup_cons] at hnd
    have hset : ∀ b : Bool, pyDictSet results k b = results ++ [(k, b)] :=
      fun b => pyDictSet_append results k b
        (fun p hp => hfresh p hp (k, v) (List.mem_cons_self _ _))
    have hfresh' : ∀ b : Bool, ∀ p ∈ results ++ [(k, b)],
        ∀ kv ∈ tl, p.1 ≠ kv.1 := by
      intro b p hp kv hkv
      rcases List.mem_append.mp hp with hp | hp
      · exact hfresh p hp kv (List.mem_cons_of_mem _ hkv)
      · simp only [List.mem_singleton] at hp
        subst hp
        intro hc
        have hc2 : k = kv.1 := hc
        exact hnd.1 (by rw [hc2]; exact List.mem_map_of_mem Prod.fst hkv)
    cases hsk : QQSyncInterface.setOneKey cm k v with
    | ok u =>
      simp only [QQSyncInterface.updateLoop, hsk, hset]
      rw [ih (results ++ [(k, true)]) (hfresh' true) hnd.2]
      simp
    | error e =>
      simp only [QQSyncInterface.updateLoop, hsk, hset]
      rw [ih (results ++ [(k, false)]) (hfresh' false) hnd.2]
      simp

/-- The per-key loop when every set succeeds: every key is tentatively
    marked `True`, in batch order. -/
theorem updateLoop_all_ok (cm : ConfigManager)
    (updates : List (List Char × PyVal)) (results : List (List Char × Bool))
    (hsets : ∀ kv ∈ updates, (QQSyncInterface.setOneKey cm kv.1 kv.2).isOk = true)
    (hfresh : ∀ p ∈ results, ∀ kv ∈ updates, p.1 ≠ kv.1)
    (hnd : (updates.map Prod.fst).Nodup) :
    QQSyncInterface.updateLoop cm updates results
      = results ++ updates.map (fun kv => (kv.1, true)) := by
  induction updates generalizing results with
  | nil => simp [QQSyncInterface.updateLoop]
  | cons hd tl ih =>
    obtain ⟨k, v⟩ := hd
    simp only [List.map_cons, List.nodup_cons] at hnd
    cases hsk : QQSyncInterface.setOneKey cm k v with
    | ok u =>
      have hset : pyDictSet results k true = results ++ [(k, true)] :=
        pyDictSet_append results k true
          (fun p hp => hfresh p hp (k, v) (List.mem_cons_self _ _))
      have hfresh' : ∀ p ∈ results ++ [(k, true)], ∀ kv ∈ tl, p.1 ≠ kv.1 := by
        intro p hp kv hkv
        rcases List.mem_append.mp hp with hp | hp
        · exact hfresh p hp kv (List.mem_cons_of_mem _ hkv)
        · simp only [List.mem_singleton] at hp
          subst hp
          intro hc
          have hc2 : k = kv.1 := hc
          exact hnd.1 (by rw [hc2]; exact List.mem_map_of_mem Prod.fst hkv)
      simp only [QQSyncInterface.updateLoop, hsk, hset]
      rw [ih (results ++ [(k, true)])
        (fun kv hkv => hsets kv (List.mem_cons_of_mem _ hkv)) hfresh' hnd.2]
      simp
    | error e =>
      have := hsets (k, v) (List.mem_cons_self _ _)
      rw [hsk] at this
      simp [Except.isOk, Except.toBool] at this

/-- C2: when the external plugin resolves, its `config_manager` is
    present, every individual per-key `set_config` call of the batch
    succeeds, but the single trailing persist step fails, `update_config`
    reports *every* key of the batch as `False` — no key in that batch is
    reported as a success (the downgrade loop of api.py:215-219). -/
theorem C2_persist_downgrade (env : Env) (now : Nat) (st : AdapterState)
    (plugin : Plugin) (st' : AdapterState) (b : Bool) (cm : ConfigManager)
    (updates : List (List Char × PyVal))
    (hres : getQQsyncPlugin env now st = .ok (some plugin, st', b))
    (hcm : plugin.config_manager = .val cm)
    (hsets : ∀ kv ∈ updates, (QQSyncInterface.setOneKey cm kv.1 kv.2).isOk = true)
    (hsave : (QQSyncInterface.saveStepCM cm).isOk = false)
    (hnd : (updates.map Prod.fst).Nodup) :
    QQSyncInterface.update_config env now st updates
      = .ok (updates.map (fun kv => (kv.1, false)), st') := by
  have hbody : QQSyncInterface.updateConfigBody plugin updates
      = .ok (updates.map (fun kv => (kv.1, false))) := by
    unfold QQSyncInterface.updateConfigBody
    rw [hcm]
    simp only [Attr.has, Attr.access, bind, Except.bind, if_true]
    rw [updateLoop_all_ok cm updates [] hsets
      (fun p hp => absurd hp (List.not_mem_nil p)) hnd]
    cases hsv : QQSyncInterface.saveStepCM cm with
    | ok u => rw [hsv] at hsave; simp [Except.isOk, Except.toBool] at hsave
    | error e =>
      simp only [List.nil_append, List.map_map]
      rfl
  unfold QQSyncInterface.update_config
  rw [hres]
  show Except.ok (pyTryD (QQSyncInterface.updateConfigBody plugin updates)
    (fun _ => updates.map (fun kv => (kv.1, false))), st') = _
  rw [hbody]
  rfl

/-- C2 witness: a concrete config manager whose two sets succeed and
    whose `save_config` raises; both keys are reported `False`. -/
def cmSaveFails : ConfigManager :=
  ⟨.absent, .val (fun _ _ => .ok .none),
   .val (fun _ => .error "disk full".toList), .absent⟩

/-- The external plugin used by the C2 witness. -/
def pluginSaveFails : Plugin :=
  { pluginStub with config_manager := .val cmSaveFails }

/-- A runtime that always resolves `pluginSaveFails`. -/
def envSaveFails : Env := ⟨fun _ => .ok (some pluginSaveFails), .ok .none⟩

theorem C2_persist_downgrade_witness :
    QQSyncInterface.update_config envSaveFails 100 ⟨none, 0⟩
        [("a".toList, .int 1), ("b".toList, .int 2)]
      = .ok ([("a".toList, false), ("b".toList, false)],
          ⟨some pluginSaveFails, 100⟩) :=
  C2_persist_downgrade envSaveFails 100 ⟨none, 0⟩ pluginSaveFails
    ⟨some pluginSaveFails, 100⟩ true cmSaveFails
    [("a".toList, .int 1), ("b".toList, .int 2)]
    rfl rfl
    (by
      intro kv hkv
      simp only [List.mem_cons, List.not_mem_nil, or_false] at hkv
      rcases hkv with rfl | rfl <;> rfl)
    rfl (by decide)

/-- A `has` that answered `.ok true` means the slot holds a value. -/
theorem Attr.has_true_val {α : Type} {s : Attr α} (h : s.has = .ok true) :
    ∃ a, s = .val a := by
  cases s with
  | absent => simp [Attr.has] at h
  | val a => exact ⟨a, rfl⟩
  | raising m => simp [Attr.has] at h

/-- C10: for every input map with (Python-dict) pairwise-distinct keys
    and every state of the external plugin — absent plugin, missing or
    raising `config_manager`, any subset of per-key sets failing, failing
    persist, or an unexpected exception — the map returned by
    `update_config` has exactly the input's key sequence: every requested
    key is reported and no other key appears. -/
theorem C10_update_config_keys (env : Env) (now : Nat) (st : AdapterState)
    (updates : List (List Char × PyVal))
    (hnd : (updates.map Prod.fst).Nodup) :
    ∃ res st', QQSyncInterface.update_config env now st updates = .ok (res, st') ∧
      res.map Prod.fst = updates.map Prod.fst := by
  unfold QQSyncInterface.update_config
  rcases hres : getQQsyncPlugin env now st with e | ⟨p?, st', b⟩
  · exact absurd hres (resolve_not_error env now st e)
  · cases p? with
    | none =>
      refine ⟨updates.map (fun kv => (kv.1, false)), st', rfl, ?_⟩
      simp
    | some plugin =>
      refine ⟨_, st', rfl, ?_⟩
      cases hbody : QQSyncInterface.updateConfigBody plugin updates with
      | error e => simp [pyTryD, hbody]
      | ok r =>
        simp only [pyTryD, hbody]
        unfold QQSyncInterface.updateConfigBody at hbody
        cases hhas : plugin.config_manager.has with
        | error e =>
          rw [hhas] at hbody
          simp [bind, Except.bind] at hbody
        | ok hc =>
          rw [hhas] at hbody
          cases hc with
          | false =>
            simp only [bind, Except.bind, Bool.false_eq_true, if_false,
              pure, Except.pure, Except.ok.injEq] at hbody
            rw [← hbody]
            simp
          | true =>
            obtain ⟨cm, hcm⟩ := Attr.has_true_val hhas
            rw [hcm] at hbody
            simp only [bind, Except.bind, Attr.access, if_true] at hbody
            cases hsv : QQSyncInterface.saveStepCM cm with
            | ok u =>
              rw [hsv] at hbody
              simp only [pure, Except.pure, Except.ok.injEq] at hbody
              rw [← hbody]
              exact updateLoop_keys cm updates []
                (fun p hp => absurd hp (List.not_mem_nil p)) hnd
            | error e =>
              rw [hsv] at hbody
              simp only [pure, Except.pure, Except.ok.injEq] at hbody
              rw [← hbody, List.map_map]
              exact updateLoop_keys cm updates []
                (fun p hp => absurd hp (List.not_mem_nil p)) hnd

/-- C10 witness: the key-set equality at a concrete unavailable runtime. -/
theorem C10_update_config_keys_witness :
    ∃ res st',
      QQSyncInterface.update_config envUnavailable 100 ⟨none, 0⟩
        [("a".toList, .int 1)] = .ok (res, st') ∧
      res.map Prod.fst = [("a".toList, PyVal.int 1)].map Prod.fst :=
  C10_update_config_keys envUnavailable 100 ⟨none, 0⟩
    [("a".toList, .int 1)] (by decide)

/-! ## Split / strip lemmas for the persisted line format (claim C7) -/

theorem pyFindAux_cons_skip {sep : List Char} {x : Char} {s : List Char}
    (h : sep.isPrefixOf (x :: s) = false) :
    pyFindAux sep (x :: s) = (pyFindAux sep s).map (· + 1) := by
  simp [pyFindAux, h]

/-- First occurrence of a two-character separator `c₁c₂` with `c₁ ≠ c₂`
    in `a ++ c₁ :: c₂ :: b` is at `a.length`, provided the separator does
    not occur inside `a` (no occurrence can straddle the boundary because
    `c₂ ≠ c₁`). -/
theorem pyFindAux_sandwich {c₁ c₂ : Char} (hne : c₁ ≠ c₂) (a b : List Char)
    (ha : pyFindAux [c₁, c₂] a = none) :
    pyFindAux [c₁, c₂] (a ++ c₁ :: c₂ :: b) = some a.length := by
  induction a with
  | nil =>
    simp [pyFindAux, List.isPrefixOf]
  | cons x a' ih =>
    have hsplit : [c₁, c₂].isPrefixOf (x :: a') = false ∧
        pyFindAux [c₁, c₂] a' = none := by
      by_cases hp : [c₁, c₂].isPrefixOf (x :: a') = true
      · rw [pyFindAux] at ha
        rw [if_pos hp] at ha
        exact absurd ha (by simp)
      · refine ⟨Bool.eq_false_iff.mpr hp, ?_⟩
        rw [pyFindAux, if_neg hp] at ha
        cases hfa : pyFindAux [c₁, c₂] a' with
        | none => rfl
        | some i => rw [hfa] at ha; simp at ha
    have hnp : [c₁, c₂].isPrefixOf (x :: (a' ++ c₁ :: c₂ :: b)) = false := by
      cases a' with
      | nil =>
        simp only [List.nil_append]
        simp only [List.isPrefixOf, Bool.and_eq_false_iff]
        by_cases hx : (c₁ == x) = true
        · right
          left
          simp only [beq_eq_false_iff_ne, ne_eq]
          exact fun hc => hne (hc ▸ rfl)
        · left
          exact Bool.eq_false_iff.mpr hx
      | cons y a'' =>
        simp only [List.cons_append]
        simp only [List.isPrefixOf, Bool.and_eq_false_iff]
        have := hsplit.1
        simp only [List.isPrefixOf, Bool.and_eq_false_iff] at this
        rcases this with h1 | h2 | h3
        · left
          exact h1
        · right
          left
          exact h2
        · simp at h3
    rw [List.cons_append, pyFindAux_cons_skip hnp, ih hsplit.2]
    rfl

/-- First occurrence of a single-character separator `c` in
    `a ++ c :: b` is at `a.length` when `c ∉ a`. -/
theorem pyFindAux_sandwich1 {c : Char} (a b : List Char) (ha : c ∉ a) :
    pyFindAux [c] (a ++ c :: b) = some a.length := by
  induction a with
  | nil =>
    simp [pyFindAux, List.isPrefixOf]
  | cons x a' ih =>
    have hnp : [c].isPrefixOf (x :: (a' ++ c :: b)) = false := by
      simp only [List.isPrefixOf, Bool.and_eq_false_iff]
      left
      simp only [beq_eq_false_iff_ne, ne_eq]
      intro hc
      exact ha (by rw [hc]; exact List.mem_cons_self _ _)
    rw [List.cons_append, pyFindAux_cons_skip hnp,
      ih (fun hm => ha (List.mem_cons_of_mem _ hm))]
    rfl

theorem List.take_len_append {α : Type} (a b : List α) :
    (a ++ b).take a.length = a := by
  induction a with
  | nil => rfl
  | cons x a' ih => simp [ih]

theorem List.drop_len_append {α : Type} (a b : List α) :
    (a ++ b).drop a.length = b := by
  induction a with
  | nil => rfl
  | cons x a' ih => simp [ih]

theorem pySplit1_sandwich {c₁ c₂ : Char} (hne : c₁ ≠ c₂) (a b : List Char)
    (ha : pyFindAux [c₁, c₂] a = none) :
    pySplit1 [c₁, c₂] (a ++ c₁ :: c₂ :: b) = some (a, b) := by
  rw [pySplit1, pyFindAux_sandwich hne a b ha]
  have htake : (a ++ c₁ :: c₂ :: b).take a.length = a := List.take_len_append a _
  have hdrop : (a ++ c₁ :: c₂ :: b).drop (a.length + 2) = b := by
    have : a ++ c₁ :: c₂ :: b = (a ++ [c₁, c₂]) ++ b := by simp
    rw [this]
    have hlen : (a ++ [c₁, c₂]).length = a.length + 2 := by simp
    rw [← hlen]
    exact List.drop_len_append _ _
  simp only [htake, List.length_cons, List.length_nil]
  rw [hdrop]

theorem pySplit1_sandwich1 {c : Char} (a b : List Char) (ha : c ∉ a) :
    pySplit1 [c] (a ++ c :: b) = some (a, b) := by
  rw [pySplit1, pyFindAux_sandwich1 a b ha]
  have htake : (a ++ c :: b).take a.length = a := List.take_len_append a _
  have hdrop : (a ++ c :: b).drop (a.length + 1) = b := by
    have : a ++ c :: b = (a ++ [c]) ++ b := by simp
    rw [this]
    have hlen : (a ++ [c]).length = a.length + 1 := by simp
    rw [← hlen]
    exact List.drop_len_append _ _
  simp only [htake, List.length_cons, List.length_nil]
  rw [hdrop]

theorem pyFindAux_none_of_not_mem {c₁ : Char} (c₂ : Char) {a : List Char}
    (ha : c₁ ∉ a) : pyFindAux [c₁, c₂] a = none := by
  induction a with
  | nil => rfl
  | cons x a' ih =>
    have hnp : [c₁, c₂].isPrefixOf (x :: a') = false := by
      simp only [List.isPrefixOf, Bool.and_eq_false_iff]
      left
      simp only [beq_eq_false_iff_ne, ne_eq]
      intro hc
      exact ha (by rw [hc]; exact List.mem_cons_self _ _)
    rw [pyFindAux_cons_skip hnp,
      ih (fun hm => ha (List.mem_cons_of_mem _ hm))]
    rfl

theorem List.dropWhile_eq_self_parts {p : Char → Bool} {x : List Char}
    (h : ((x.dropWhile p).reverse.dropWhile p).reverse = x) :
    x.dropWhile p = x ∧ x.reverse.dropWhile p = x.reverse := by
  have h1 : (x.dropWhile p).length ≤ x.length :=
    (List.dropWhile_sublist p (l := x)).length_le
  have h2 : ((x.dropWhile p).reverse.dropWhile p).length
      ≤ (x.dropWhile p).reverse.length :=
    (List.dropWhile_sublist p (l := (x.dropWhile p).reverse)).length_le
  have hlen : ((x.dropWhile p).reverse.dropWhile p).reverse.length = x.length := by
    rw [h]
  simp only [List.length_reverse] at hlen h2
  have hd : x.dropWhile p = x :=
    (List.dropWhile_sublist p (l := x)).eq_of_length (by omega)
  refine ⟨hd, ?_⟩
  rw [hd] at hlen
  exact (List.dropWhile_sublist p (l := x.reverse)).eq_of_length (by
    rw [List.length_reverse]
    omega)

/-- Appending the encoder's trailing `'\n'` does not survive
    `.strip()`: stripping `x ++ ['\n']` gives back a strip-stable `x`. -/
theorem pyStrip_append_newline (x : List Char) (hx : pyStrip x = x) :
    pyStrip (x ++ ['\n']) = x := by
  obtain ⟨hfront, hback⟩ := List.dropWhile_eq_self_parts (p := pyIsSpace) hx
  cases x with
  | nil => rfl
  | cons c x' =>
    have hc : pyIsSpace c = false := by
      by_cases hpc : pyIsSpace c = true
      · rw [List.dropWhile_cons, if_pos hpc] at hfront
        have := congrArg List.length hfront
        have hlen : (x'.dropWhile pyIsSpace).length ≤ x'.length :=
          (List.dropWhile_sublist pyIsSpace (l := x')).length_le
        simp at this
        omega
      · exact Bool.eq_false_iff.mpr hpc
    unfold pyStrip
    rw [List.cons_append, List.dropWhile_cons, if_neg (by rw [hc]; simp)]
    have hrev : (c :: (x' ++ ['\n'])).reverse = '\n' :: (c :: x').reverse := by
      simp
    rw [hrev, List.dropWhile_cons, if_pos (by decide), hback,
      List.reverse_reverse]

/-- Character facts about the ASCII digits produced by the encoder. -/
theorem digit_facts : ∀ k < 10, (Char.ofNat (48 + k)).isDigit = true ∧
    Char.ofNat (48 + k) ≠ ']' ∧ Char.ofNat (48 + k) ≠ ':' ∧
    Char.ofNat (48 + k) ≠ '[' ∧ pyIsSpace (Char.ofNat (48 + k)) = false ∧
    (Char.ofNat (48 + k)).toNat - 48 = k := by decide

theorem pyRemoveChar_eq_self (c : Char) (l : List Char) (h : c ∉ l) :
    pyRemoveChar c l = l := by
  unfold pyRemoveChar
  refine List.filter_eq_self.mpr ?_
  intro a ha
  refine decide_eq_true ?_
  intro hc
  exact h (hc ▸ ha)

theorem pyRemoveChar_cons_self (c : Char) (l : List Char) (h : c ∉ l) :
    pyRemoveChar c (c :: l) = l := by
  unfold pyRemoveChar
  rw [List.filter_cons]
  have hd : (decide (c ≠ c)) = false := by simp
  rw [hd]
  simp only [Bool.false_eq_true, if_false]
  exact pyRemoveChar_eq_self c l h

theorem digitCh_ne_rbracket (d : Nat) : digitCh d ≠ ']' :=
  (digit_facts (d % 10) (Nat.mod_lt _ (by norm_num))).2.1

theorem digitCh_ne_colon (d : Nat) : digitCh d ≠ ':' :=
  (digit_facts (d % 10) (Nat.mod_lt _ (by norm_num))).2.2.1

theorem digitCh_ne_lbracket (d : Nat) : digitCh d ≠ '[' :=
  (digit_facts (d % 10) (Nat.mod_lt _ (by norm_num))).2.2.2.1

theorem parse2_pad2 : ∀ n < 100, parse2 (pad2 n) = some n := by decide

/-- The time rendering `HH:MM:SS` produced by the encoder contains no
    `']'` and no `'['`. -/
theorem timecore_not_mem (h m s : Nat) (c : Char) (hc1 : c ≠ ':')
    (hcd : ∀ d : Nat, digitCh d ≠ c) :
    c ∉ pad2 h ++ ':' :: pad2 m ++ ':' :: pad2 s := by
  intro hmem
  simp only [pad2, List.cons_append, List.nil_append, List.mem_cons,
    List.mem_append, List.not_mem_nil] at hmem
  rcases hmem with h1 | h1 | h1 | h1 | h1 | h1 | h1 | h1 | h1 <;>
    first
      | exact hcd _ h1.symm
      | exact hc1 h1
      | exact h1.elim

/-- `strptime` inverts the encoder's `strftime` on the time-of-day
    fields. -/
theorem pyParseTime_encode (h m s : Nat) (hh : h < 24) (hm : m < 60) (hs : s < 60) :
    pyParseTime (pad2 h ++ ':' :: (pad2 m ++ ':' :: pad2 s))
      = some (h * 3600 + m * 60 + s) := by
  have hnh : ':' ∉ pad2 h := by
    intro hmem
    simp only [pad2, List.mem_cons, List.not_mem_nil, or_false] at hmem
    rcases hmem with h1 | h1 <;> exact digitCh_ne_colon _ h1.symm
  have hnm : ':' ∉ pad2 m := by
    intro hmem
    simp only [pad2, List.mem_cons, List.not_mem_nil, or_false] at hmem
    rcases hmem with h1 | h1 <;> exact digitCh_ne_colon _ h1.symm
  unfold pyParseTime
  simp only [pySplit1_sandwich1 (pad2 h) (pad2 m ++ ':' :: pad2 s) hnh,
    pySplit1_sandwich1 (pad2 m) (pad2 s) hnm,
    parse2_pad2 h (by omega), parse2_pad2 m (by omega), parse2_pad2 s (by omega)]
  rw [if_pos ⟨hh, hm, hs⟩]

/-- Every encoder direction label (lookup hit or the `'[未知]'` default)
    is its bracket-free core wrapped in one bracket pair, and the core
    contains no bracket. -/
theorem dirLabel_shape (d : List Char) :
    WebUIServer.dirLabel d = '[' :: WebUIServer.dirLabelCore d ++ [']'] ∧
    ']' ∉ WebUIServer.dirLabelCore d ∧ '[' ∉ WebUIServer.dirLabelCore d := by
  simp only [WebUIServer.dirLabelCore, WebUIServer.dirLabel,
    WebUIServer.directionMapEnc, pyGetD]
  split_ifs <;> exact ⟨by decide, by decide, by decide⟩

/-! ## Claim C7 -/

/-- C7 counterexample: the store decoder does not map the direction
    label back to the direction value.  Encoding a message whose
    direction is `'qq_to_game'` (sender `"A"`, content `"x"`, free of the
    reserved substrings) and decoding the resulting line yields the
    direction label text `'QQ→游戏'`, not `'qq_to_game'` — so
    `decode(encode(m)) ≠ m` even for perfectly tame messages. -/
theorem C7_cex :
    WebUIServer.decodeLine
        (WebUIServer.encodeLine ⟨36000, "A".toList, "x".toList, "qq_to_game".toList⟩).1
        (WebUIServer.encodeLine ⟨36000, "A".toList, "x".toList, "qq_to_game".toList⟩).2
      = some ⟨36000, "A".toList, "x".toList, "QQ→游戏".toList⟩ ∧
    WebUIServer.decodeLine
        (WebUIServer.encodeLine ⟨36000, "A".toList, "x".toList, "qq_to_game".toList⟩).1
        (WebUIServer.encodeLine ⟨36000, "A".toList, "x".toList, "qq_to_game".toList⟩).2
      ≠ some ⟨36000, "A".toList, "x".toList, "qq_to_game".toList⟩ := by
  constructor
  · decide
  · decide

/-- C7 amended: for every message whose sender and content avoid the
    reserved substrings `"] "` and `": "` and carry no leading or
    trailing whitespace, decoding the encoded line restores the
    second-resolution timestamp, the sender and the content exactly, and
    returns as `direction` the bracket-free *label* of the message's
    direction (`dirLabelCore`) rather than the direction value itself. -/
theorem C7_amended (m : WebUIServer.Msg)
    (hs1 : pyIn "] ".toList m.sender = false)
    (hs2 : pyIn ": ".toList m.sender = false)
    (hc1 : pyIn "] ".toList m.content = false)
    (hc2 : pyIn ": ".toList m.content = false)
    (hss : pyStrip m.sender = m.sender)
    (hcs : pyStrip m.content = m.content) :
    WebUIServer.decodeLine (WebUIServer.encodeLine m).1 (WebUIServer.encodeLine m).2
      = some ⟨m.timestamp, m.sender, m.content,
          WebUIServer.dirLabelCore m.direction⟩ := by
  obtain ⟨hl, hlcR, hlcL⟩ := dirLabel_shape m.direction
  have hH : m.timestamp % 86400 / 3600 < 24 := by omega
  have hM : m.timestamp % 3600 / 60 < 60 := by omega
  have hS : m.timestamp % 60 < 60 := by omega
  have htcR : ']' ∉ pad2 (m.timestamp % 86400 / 3600) ++
      ':' :: pad2 (m.timestamp % 3600 / 60) ++ ':' :: pad2 (m.timestamp % 60) :=
    timecore_not_mem _ _ _ ']' (by decide) digitCh_ne_rbracket
  have htcL : '[' ∉ pad2 (m.timestamp % 86400 / 3600) ++
      ':' :: pad2 (m.timestamp % 3600 / 60) ++ ':' :: pad2 (m.timestamp % 60) :=
    timecore_not_mem _ _ _ '[' (by decide) digitCh_ne_lbracket
  have hassoc : ∀ x y z : List Char, x ++ ':' :: y ++ ':' :: z
      = x ++ ':' :: (y ++ ':' :: z) := by
    intro x y z
    simp
  have hline : (WebUIServer.encodeLine m).2
      = ('[' :: (pad2 (m.timestamp % 86400 / 3600) ++
          ':' :: (pad2 (m.timestamp % 3600 / 60) ++
          ':' :: pad2 (m.timestamp % 60)))) ++
        ']' :: ' ' ::
        (('[' :: WebUIServer.dirLabelCore m.direction) ++
        ']' :: ' ' ::
        (m.sender ++ ':' :: ' ' :: (m.content ++ ['\n']))) := by
    simp [WebUIServer.encodeLine, hl]
  have hday : (WebUIServer.encodeLine m).1 = m.timestamp / 86400 := rfl
  have hfind1 : pyFindAux [']', ' ']
      ('[' :: (pad2 (m.timestamp % 86400 / 3600) ++
        ':' :: (pad2 (m.timestamp % 3600 / 60) ++
        ':' :: pad2 (m.timestamp % 60)))) = none := by
    refine pyFindAux_none_of_not_mem ' ' ?_
    intro hmem
    rcases List.mem_cons.mp hmem with h1 | h1
    · cases h1
    · exact htcR (by simpa using h1)
  have hsp1 := pySplit1_sandwich (by decide)
    ('[' :: (pad2 (m.timestamp % 86400 / 3600) ++
      ':' :: (pad2 (m.timestamp % 3600 / 60) ++
      ':' :: pad2 (m.timestamp % 60))))
    (('[' :: WebUIServer.dirLabelCore m.direction) ++
      ']' :: ' ' :: (m.sender ++ ':' :: ' ' :: (m.content ++ ['\n'])))
    hfind1
  have hfind2 : pyFindAux [']', ' ']
      ('[' :: WebUIServer.dirLabelCore m.direction) = none := by
    refine pyFindAux_none_of_not_mem ' ' ?_
    intro hmem
    rcases List.mem_cons.mp hmem with h1 | h1
    · cases h1
    · exact hlcR h1
  have hsp2 := pySplit1_sandwich (by decide)
    ('[' :: WebUIServer.dirLabelCore m.direction)
    (m.sender ++ ':' :: ' ' :: (m.content ++ ['\n'])) hfind2
  have hfindS : pyFindAux [':', ' '] m.sender = none := by
    cases hf : pyFindAux [':', ' '] m.sender with
    | none => rfl
    | some i =>
      have : pyIn ": ".toList m.sender = true := by
        unfold pyIn
        rw [show ": ".toList = [':', ' '] from rfl, hf]
        rfl
      rw [this] at hs2
      cases hs2
  have hsp3 := pySplit1_sandwich (by decide) m.sender (m.content ++ ['\n']) hfindS
  have hrm1 : pyRemoveChar '['
      ('[' :: (pad2 (m.timestamp % 86400 / 3600) ++
        ':' :: (pad2 (m.timestamp % 3600 / 60) ++
        ':' :: pad2 (m.timestamp % 60)))) =
      pad2 (m.timestamp % 86400 / 3600) ++
        ':' :: (pad2 (m.timestamp % 3600 / 60) ++
        ':' :: pad2 (m.timestamp % 60)) :=
    pyRemoveChar_cons_self '[' _ (fun hmem => htcL (by simpa using hmem))
  have hrm2 : pyRemoveChar '[' ('[' :: WebUIServer.dirLabelCore m.direction)
      = WebUIServer.dirLabelCore m.direction :=
    pyRemoveChar_cons_self '[' _ hlcL
  have hpt := pyParseTime_encode (m.timestamp % 86400 / 3600)
    (m.timestamp % 3600 / 60) (m.timestamp % 60) hH hM hS
  have hstripc : pyStrip (m.content ++ ['\n']) = m.content :=
    pyStrip_append_newline m.content hcs
  rw [WebUIServer.decodeLine, hline, hday]
  rw [show "] ".toList = [']', ' '] from rfl, show ": ".toList = [':', ' '] from rfl]
  simp only [hsp1, hsp2, hsp3, hrm1, hrm2, hpt, hss, hstripc]
  simp only [Option.some.injEq, WebUIServer.Msg.mk.injEq]
  exact ⟨by omega, by simp⟩

/-- C7 witness: the amended round trip at a concrete console message. -/
theorem C7_amended_witness :
    WebUIServer.decodeLine
        (WebUIServer.encodeLine ⟨90000, "Admin".toList, "hello".toList, "console".toList⟩).1
        (WebUIServer.encodeLine ⟨90000, "Admin".toList, "hello".toList, "console".toList⟩).2
      = some ⟨90000, "Admin".toList, "hello".toList,
          WebUIServer.dirLabelCore "console".toList⟩ :=
  C7_amended ⟨90000, "Admin".toList, "hello".toList, "console".toList⟩
    (by decide) (by decide) (by decide) (by decide) (by decide) (by decide)

/-! ## Claim C4 -/

namespace WebUIServer

/-- A log line that takes the fully-counted path of
    `_get_message_statistics`: it contains both brackets, its leading
    `']'`-delimited field contains `':'`, and `int()` of the part before
    that `':'` yields an hour in `00`-`23`. -/
def lineWellFormed (line : List Char) : Bool :=
  pyIn "[".toList line && pyIn "]".toList line &&
  (pyIn ":".toList (pyRemoveChar '[' (pyBeforeFirst "]".toList line)) &&
   match pyInt (pyBeforeFirst ":".toList
      (pyRemoveChar '[' (pyBeforeFirst "]".toList line))) with
   | some h => decide (0 ≤ h) && decide (h < 24)
   | none => false)

theorem sum_set_succ (l : List Nat) (i : Nat) (h : i < l.length) :
    (l.set i (l.getD i 0 + 1)).sum = l.sum + 1 := by
  induction l generalizing i with
  | nil => simp at h
  | cons x xs ih =>
    cases i with
    | zero =>
      simp [List.set, List.getD]
      omega
    | succ j =>
      simp only [List.set, List.getD_cons_succ, List.sum_cons]
      rw [ih j (by simpa using h)]
      omega

theorem bumpDir_facts (s : MsgStats) (line : List Char) :
    dirSum (bumpDir s line) = dirSum s + 1 ∧
    (bumpDir s line).total = s.total ∧
    (bumpDir s line).hourly = s.hourly := by
  unfold bumpDir
  split_ifs <;> simp [dirSum] <;> omega

/-- One fully-counted line bumps the grand total, exactly one direction
    bucket, and exactly one hour bucket. -/
theorem statLine_inv (s : MsgStats) (line : List Char)
    (hw : lineWellFormed line = true)
    (h1 : dirSum s = s.total) (h2 : hourSum s = s.total)
    (h3 : s.hourly.length = 24) :
    dirSum (statLine s line) = (statLine s line).total ∧
    hourSum (statLine s line) = (statLine s line).total ∧
    (statLine s line).hourly.length = 24 ∧
    (statLine s line).total = s.total + 1 := by
  unfold lineWellFormed at hw
  simp only [Bool.and_eq_true] at hw
  obtain ⟨⟨hb1, hb2⟩, hcolon, hint⟩ := hw
  unfold statLine
  rw [if_pos ⟨hb1, hb2⟩, if_pos hcolon]
  cases hpi : pyInt (pyBeforeFirst ":".toList
      (pyRemoveChar '[' (pyBeforeFirst "]".toList line))) with
  | none => rw [hpi] at hint; cases hint
  | some hr =>
    rw [hpi] at hint
    simp only [Bool.and_eq_true, decide_eq_true_eq] at hint
    simp only [hourThenDir]
    rw [if_pos hint]
    have hlt : hr.toNat < s.hourly.length := by
      rw [h3]
      omega
    have hsum : ((s.hourly.set hr.toNat (s.hourly.getD hr.toNat 0 + 1))).sum
        = s.hourly.sum + 1 := sum_set_succ s.hourly hr.toNat hlt
    have hlen : (s.hourly.set hr.toNat (s.hourly.getD hr.toNat 0 + 1)).length
        = 24 := by
      rw [List.length_set]
      exact h3
    have key : ∀ X : MsgStats, dirSum X = dirSum s → X.total = s.total + 1 →
        X.hourly.sum = s.hourly.sum + 1 → X.hourly.length = 24 →
        dirSum (bumpDir X line) = (bumpDir X line).total ∧
        hourSum (bumpDir X line) = (bumpDir X line).total ∧
        (bumpDir X line).hourly.length = 24 ∧
        (bumpDir X line).total = s.total + 1 := by
      intro X e1 e2 e3 e4
      obtain ⟨f1, f2, f3⟩ := bumpDir_facts X line
      have h2x : s.hourly.sum = s.total := h2
      refine ⟨?_, ?_, ?_, ?_⟩
      · rw [f1, f2, e1, e2, h1]
      · unfold hourSum
        rw [f3, f2, e3, e2, h2x]
      · rw [f3, e4]
      · rw [f2, e2]
    exact key _ rfl rfl hsum hlen

/-- Folding `statLine` over the fully-counted lines of one file keeps
    both bucket sums equal to the total. -/
theorem foldl_statLine_inv (lines : List (List Char)) (s : MsgStats)
    (hw : ∀ line ∈ lines, lineWellFormed line = true)
    (h1 : dirSum s = s.total) (h2 : hourSum s = s.total)
    (h3 : s.hourly.length = 24) :
    dirSum (lines.foldl statLine s) = (lines.foldl statLine s).total ∧
    hourSum (lines.foldl statLine s) = (lines.foldl statLine s).total ∧
    (lines.foldl statLine s).hourly.length = 24 := by
  induction lines generalizing s with
  | nil => exact ⟨h1, h2, h3⟩
  | cons line rest ih =>
    obtain ⟨g1, g2, g3, _⟩ := statLine_inv s line
      (hw line (List.mem_cons_self _ _)) h1 h2 h3
    exact ih (statLine s line)
      (fun l hl => hw l (List.mem_cons_of_mem _ hl)) g1 g2 g3

theorem lookup_mem {day : Nat} {lines : List (List Char)} {fs : FS}
    (h : fs.lookup day = some lines) : (day, lines) ∈ fs := by
  induction fs with
  | nil => cases h
  | cons p rest ih =>
    obtain ⟨d, ls⟩ := p
    rw [List.lookup] at h
    by_cases hd : (day == d) = true
    · rw [hd] at h
      simp only [Option.some.injEq] at h
      subst h
      have : day = d := by simpa using hd
      subst this
      exact List.mem_cons_self _ _
    · rw [Bool.eq_false_iff.mpr hd] at h
      exact List.mem_cons_of_mem _ (ih h)

theorem statDays_inv (fs : FS) (dayList : List Nat) (s : MsgStats)
    (hw : ∀ p ∈ fs, ∀ line ∈ p.2, lineWellFormed line = true)
    (h1 : dirSum s = s.total) (h2 : hourSum s = s.total)
    (h3 : s.hourly.length = 24) :
    dirSum (statDays fs dayList s) = (statDays fs dayList s).total ∧
    hourSum (statDays fs dayList s) = (statDays fs dayList s).total := by
  induction dayList generalizing s with
  | nil => exact ⟨h1, h2⟩
  | cons day rest ih =>
    unfold statDays
    cases hlk : fs.lookup day with
    | none => exact ih _ h1 h2 h3
    | some lines =>
      have hwl : ∀ line ∈ lines, lineWellFormed line = true :=
        fun line hl => hw (day, lines) (lookup_mem hlk) line hl
      obtain ⟨g1, g2, g3⟩ := foldl_statLine_inv lines s hwl h1 h2 h3
      exact ih _ g1 g2 g3

end WebUIServer

/-- C4 counterexample: a store whose single file holds the single
    unparseable line `"hello\n"` (no brackets), aggregated over one day:
    the line is counted in `total_messages` but in *no* direction bucket
    (not even `unknown`) and no hour bucket, so both bucket sums are `0`
    while the total is `1`. -/
theorem C4_cex :
    (WebUIServer.messageStatistics [(1000, ["hello\n".toList])] 1000 1).total = 1 ∧
    WebUIServer.dirSum
      (WebUIServer.messageStatistics [(1000, ["hello\n".toList])] 1000 1) = 0 ∧
    WebUIServer.hourSum
      (WebUIServer.messageStatistics [(1000, ["hello\n".toList])] 1000 1) = 0 := by
  refine ⟨by decide, by decide, by decide⟩

/-- C4 amended: for every store whose lines all take the fully-counted
    path (both brackets present, a `':'` in the leading field, and an
    `int()`-parseable hour in `00`-`23` — every line the encoder writes
    qualifies) and every `days` and `today`, the sum of all five
    direction buckets equals `total_messages` and the sum of all 24 hour
    buckets equals `total_messages`.  Lines outside that shape are
    counted in the total but dropped from one or both bucket families,
    breaking the unrestricted claim (see the counterexample). -/
theorem C4_amended (fs : WebUIServer.FS) (today days : Nat)
    (hw : ∀ p ∈ fs, ∀ line ∈ p.2, WebUIServer.lineWellFormed line = true) :
    WebUIServer.dirSum (WebUIServer.messageStatistics fs today days)
      = (WebUIServer.messageStatistics fs today days).total ∧
    WebUIServer.hourSum (WebUIServer.messageStatistics fs today days)
      = (WebUIServer.messageStatistics fs today days).total := by
  unfold WebUIServer.messageStatistics
  exact WebUIServer.statDays_inv fs _ WebUIServer.initStats hw rfl rfl rfl

/-- C4 witness: the amended invariant on a concrete one-line store. -/
theorem C4_amended_witness :
    WebUIServer.dirSum
      (WebUIServer.messageStatistics
        [(1000, ["[10:00:00] [控制台] A: x\n".toList])] 1000 1)
      = (WebUIServer.messageStatistics
        [(1000, ["[10:00:00] [控制台] A: x\n".toList])] 1000 1).total ∧
    WebUIServer.hourSum
      (WebUIServer.messageStatistics
        [(1000, ["[10:00:00] [控制台] A: x\n".toList])] 1000 1)
      = (WebUIServer.messageStatistics
        [(1000, ["[10:00:00] [控制台] A: x\n".toList])] 1000 1).total :=
  C4_amended [(1000, ["[10:00:00] [控制台] A: x\n".toList])] 1000 1 (by decide)

/-! ## Claim C6 -/

namespace WebUIServer

/-- Length bound through the per-file line scan: the scan can overshoot a
    non-positive limit by at most the one message appended before the
    first `len(messages) >= limit` check. -/
theorem scanFileLines_bound (day : Nat) (limit : Int) (lines : List (List Char))
    (acc : List Msg) :
    ((scanFileLines day limit lines acc).1.length : Int)
      ≤ max limit (acc.length + 1) := by
  induction lines generalizing acc with
  | nil =>
    simp only [scanFileLines]
    omega
  | cons line rest ih =>
    simp only [scanFileLines]
    split
    · exact le_trans (ih acc) (by omega)
    · next m heq =>
      by_cases hge : ((acc ++ [m]).length : Int) ≥ limit
      · rw [if_pos hge]
        simp only [List.length_append, List.length_cons, List.length_nil]
        omega
      · rw [if_neg hge]
        refine le_trans (ih (acc ++ [m])) ?_
        simp only [List.length_append, List.length_cons, List.length_nil] at hge ⊢
        omega

/-- A scan that did not hit the limit either stayed below it or appended
    nothing. -/
theorem scanFileLines_false (day : Nat) (limit : Int) (lines : List (List Char))
    (acc acc' : List Msg)
    (h : scanFileLines day limit lines acc = (acc', false)) :
    ((acc'.length : Int) < limit ∨ acc' = acc) := by
  induction lines generalizing acc with
  | nil =>
    simp only [scanFileLines, Prod.mk.injEq] at h
    right
    exact h.1.symm
  | cons line rest ih =>
    simp only [scanFileLines] at h
    split at h
    · exact ih acc h
    · next m heq =>
      by_cases hge : ((acc ++ [m]).length : Int) ≥ limit
      · rw [if_pos hge] at h
        simp at h
      · rw [if_neg hge] at h
        rcases ih (acc ++ [m]) h with h1 | h1
        · exact Or.inl h1
        · left
          rw [h1]
          simp only [List.length_append, List.length_cons, List.length_nil] at hge ⊢
          omega

theorem scanDays_bound (fs : FS) (limit : Int) (dayList : List Nat)
    (acc : List Msg) :
    ((scanDays fs limit dayList acc).length : Int) ≤ max limit (acc.length + 1) := by
  induction dayList generalizing acc with
  | nil =>
    simp only [scanDays]
    omega
  | cons day rest ih =>
    simp only [scanDays]
    split
    · exact ih acc
    · next lines hlk =>
      cases hscan : scanFileLines day limit lines.reverse acc with
      | mk acc' flag =>
        have hb := scanFileLines_bound day limit lines.reverse acc
        rw [hscan] at hb
        simp only [] at hb
        cases flag with
        | true => exact hb
        | false =>
          rcases scanFileLines_false day limit lines.reverse acc acc' hscan with h1 | h1
          · refine le_trans (ih acc') ?_
            omega
          · subst h1
            exact ih acc'

theorem scanDays_empty (limit : Int) (dayList : List Nat) (acc : List Msg) :
    scanDays [] limit dayList acc = acc := by
  induction dayList with
  | nil => rfl
  | cons day rest ih => simpa [scanDays, List.lookup] using ih

end WebUIServer

namespace QQSyncInterface

theorem apiScanLines_bound (day : Nat) (limit : Int) (lines : List (List Char))
    (acc : List ApiMsg) :
    ((apiScanLines day limit lines acc).1.length : Int)
      ≤ max limit (acc.length + 1) := by
  induction lines generalizing acc with
  | nil =>
    simp only [apiScanLines]
    omega
  | cons line rest ih =>
    simp only [apiScanLines]
    by_cases hblank : (pyStrip line).isEmpty = true
    · rw [if_pos hblank]
      exact ih acc
    · rw [if_neg hblank]
      split
      · next m heq =>
        by_cases hge : ((acc ++ [m]).length : Int) ≥ limit
        · rw [if_pos hge]
          simp only [List.length_append, List.length_cons, List.length_nil]
          omega
        · rw [if_neg hge]
          refine le_trans (ih (acc ++ [m])) ?_
          simp only [List.length_append, List.length_cons, List.length_nil] at hge ⊢
          omega
      · by_cases hge : ((acc.length : Int) ≥ limit)
        · rw [if_pos hge]
          show ((acc.length : Int)) ≤ max limit (acc.length + 1)
          omega
        · rw [if_neg hge]
          exact ih acc

theorem apiScanFiles_bound (limit : Int)
    (files : List (Nat × Except Exn (List (List Char)))) (acc : List ApiMsg) :
    ((apiScanFiles limit files acc).length : Int) ≤ max limit (acc.length + 1) := by
  induction files generalizing acc with
  | nil =>
    simp only [apiScanFiles]
    omega
  | cons f rest ih =>
    obtain ⟨day, content⟩ := f
    simp only [apiScanFiles]
    split
    · exact ih acc
    · next lines =>
      cases hscan : apiScanLines day limit lines.reverse acc with
      | mk acc' flag =>
        have hb := apiScanLines_bound day limit lines.reverse acc
        rw [hscan] at hb
        simp only [] at hb
        cases flag with
        | true => exact hb
        | false =>
          by_cases hge : ((acc'.length : Int) ≥ limit)
          · show ((if (acc'.length : Int) ≥ limit then acc'
              else apiScanFiles limit rest acc').length : Int) ≤ _
            rw [if_pos hge]
            exact hb
          · show ((if (acc'.length : Int) ≥ limit then acc'
              else apiScanFiles limit rest acc').length : Int) ≤ _
            rw [if_neg hge]
            refine le_trans (ih acc') ?_
            omega

/-- `messages[:limit]` keeps the collection bound: a list of at most
    `max limit 1` elements slices to at most `max limit 1` elements (for
    a negative limit the slice drops at least one element from a list of
    at most one, leaving it empty). -/
theorem pySlice_bound {α : Type} (l : List α) (limit : Int)
    (hl : (l.length : Int) ≤ max limit 1) :
    ((pySlice l limit).length : Int) ≤ max limit 1 := by
  unfold pySlice
  by_cases hnn : (0 : Int) ≤ limit
  · rw [if_pos hnn]
    simp only [List.length_take]
    omega
  · rw [if_neg hnn]
    simp only [List.length_take]
    omega

end QQSyncInterface

namespace QQSyncInterface

/-- Exhaustive shape of the value `get_recent_messages`' `try` body can
    return: the empty list, the single storage-disabled placeholder, or
    the sliced descending sort of a collected batch. -/
theorem getRecentMessagesBody_cases (now : Nat) (plugin : Plugin) (limit : Int)
    (v : List ApiMsg) (h : getRecentMessagesBody now plugin limit = .ok v) :
    v = [] ∨
    v = [⟨now, "System".toList, "消息历史功能暂未启用".toList,
      "system".toList, "system".toList⟩] ∨
    ∃ files, v = pySlice (sortMsgsDesc (apiScanFiles limit files [])) limit := by
  unfold getRecentMessagesBody at h
  cases hhas : plugin.message_storage_dir.has with
  | error e =>
    rw [hhas] at h
    simp [bind, Except.bind] at h
  | ok b =>
    rw [hhas] at h
    simp only [bind, Except.bind] at h
    cases b with
    | false =>
      simp only [Bool.false_eq_true, if_false, pure, Except.pure,
        Except.ok.injEq] at h
      right
      left
      exact h.symm
    | true =>
      simp only [if_true] at h
      cases hacc : plugin.message_storage_dir.access with
      | error e =>
        rw [hacc] at h
        simp at h
      | ok sd =>
        rw [hacc] at h
        simp only [] at h
        by_cases hpres : sd.present = true
        · simp only [hpres, Bool.not_true, Bool.false_eq_true, if_false] at h
          by_cases hemp : (sd.files.filterMap (fun f =>
              if f.isFile then f.stem.map (fun d => (d, f.content))
              else none)).isEmpty = true
          · rw [if_pos hemp] at h
            simp only [pure, Except.pure, Except.ok.injEq] at h
            left
            exact h.symm
          · rw [if_neg hemp] at h
            simp only [pure, Except.pure, Except.ok.injEq] at h
            right
            right
            exact ⟨_, h.symm⟩
        · simp only [Bool.eq_false_iff.mpr hpres, Bool.not_false, if_true,
            pure, Except.pure, Except.ok.injEq] at h
          left
          exact h.symm

end QQSyncInterface

/-- C6 counterexample: `_get_recent_messages_from_file` with `limit = 0`
    on a store holding one valid line returns **one** message, because
    the `len(messages) >= limit` check runs only *after* the first
    append — more than the zero messages the claim allows. -/
theorem C6_cex :
    (WebUIServer.recentFromFile
      [(100, ["[10:00:00] [控制台] A: x\n".toList])] 100 0).length = 1 := by
  decide

/-- C6 amended: `_get_recent_messages_from_file` returns at most
    `max(limit, 1)` messages — hence at most `limit` for every
    `limit ≥ 1`, while a zero or negative limit can be overshot by the
    one message appended before the first check; on a store with no
    files it returns the empty list (and no error, the function being
    total).  The adapter-level `get_recent_messages` obeys the same
    `max(limit, 1)` bound for every plugin state (its storage-disabled
    placeholder branch returns one message even when `limit ≤ 0`). -/
theorem C6_amended (fs : WebUIServer.FS) (today : Nat) (limit : Int)
    (env : Env) (now : Nat) (st : AdapterState)
    (msgs : List QQSyncInterface.ApiMsg) (st' : AdapterState)
    (hapi : QQSyncInterface.get_recent_messages env now st limit = .ok (msgs, st')) :
    ((WebUIServer.recentFromFile fs today limit).length : Int) ≤ max limit 1 ∧
    WebUIServer.recentFromFile [] today limit = [] ∧
    ((msgs.length : Int) ≤ max limit 1) := by
  refine ⟨?_, ?_, ?_⟩
  · unfold WebUIServer.recentFromFile
    have := WebUIServer.scanDays_bound fs limit
      ((List.range 7).map (fun i => today - i)) []
    simpa using this
  · exact WebUIServer.scanDays_empty limit _ []
  · unfold QQSyncInterface.get_recent_messages at hapi
    rcases hres : getQQsyncPlugin env now st with e | ⟨p?, st1, b⟩
    · exact absurd hres (resolve_not_error env now st e)
    · rw [hres] at hapi
      cases p? with
      | none =>
        simp only [Except.ok.injEq, Prod.mk.injEq] at hapi
        rw [← hapi.1]
        simp
      | some plugin =>
        simp only [Except.ok.injEq, Prod.mk.injEq] at hapi
        cases hbody : QQSyncInterface.getRecentMessagesBody now plugin limit with
        | error e =>
          rw [← hapi.1]
          simp only [pyTryD, hbody]
          simp
        | ok v =>
          have hv : msgs = v := by
            rw [← hapi.1]
            simp [pyTryD, hbody]
          rw [hv]
          rcases QQSyncInterface.getRecentMessagesBody_cases now plugin limit v hbody
            with h1 | h1 | ⟨files, h1⟩
          · rw [h1]
            simp
          · rw [h1]
            simp
          · rw [h1]
            refine QQSyncInterface.pySlice_bound _ limit ?_
            unfold QQSyncInterface.sortMsgsDesc
            rw [List.length_insertionSort]
            have := QQSyncInterface.apiScanFiles_bound limit files []
            simpa using this

/-- C6 witness: concrete instances of all three amended bounds. -/
theorem C6_amended_witness :
    ((WebUIServer.recentFromFile
        [(100, ["[10:00:00] [控制台] A: x\n".toList])] 100 0).length : Int)
      ≤ max 0 1 ∧
    WebUIServer.recentFromFile [] 100 0 = [] ∧
    ((([] : List QQSyncInterface.ApiMsg).length : Int) ≤ max 0 1) :=
  C6_amended [(100, ["[10:00:00] [控制台] A: x\n".toList])] 100 0
    envUnavailable 100 ⟨none, 0⟩ [] ⟨none, 100⟩ rfl

/-! ## Claim C5 -/

/-- C5 counterexample: `_get_recent_messages_from_file` performs no
    re-sort.  On a file whose physical line order is not
    timestamp-ordered (a 10:00 line written before a 09:00 line), the
    reversed-physical-order scan returns the 09:00 message *before* the
    10:00 one — an increasing pair, so the result is not non-increasing
    by timestamp. -/
theorem C5_cex :
    (WebUIServer.recentFromFile
        [(100, ["[10:00:00] [控制台] A: x\n".toList,
                "[09:00:00] [控制台] B: y\n".toList])] 100 10).map
      (fun m => m.timestamp) = [8672400, 8676000] ∧
    ¬ List.Pairwise (fun a b : WebUIServer.Msg => b.timestamp ≤ a.timestamp)
      (WebUIServer.recentFromFile
        [(100, ["[10:00:00] [控制台] A: x\n".toList,
                "[09:00:00] [控制台] B: y\n".toList])] 100 10) := by
  constructor
  · decide
  · decide

/-- C5 amended: the *adapter-level* `get_recent_messages` (api.py) does
    re-sort by timestamp descending before returning, so every list it
    returns — for every store state, plugin state and limit — is
    non-increasing by timestamp; the store-level
    `_get_recent_messages_from_file` (server.py) returns raw collection
    order and does not satisfy this (see the counterexample). -/
theorem C5_amended (env : Env) (now : Nat) (st : AdapterState) (limit : Int)
    (msgs : List QQSyncInterface.ApiMsg) (st' : AdapterState)
    (hapi : QQSyncInterface.get_recent_messages env now st limit = .ok (msgs, st')) :
    List.Pairwise (fun a b : QQSyncInterface.ApiMsg =>
      b.timestamp ≤ a.timestamp) msgs := by
  have hsorted : ∀ l : List QQSyncInterface.ApiMsg,
      List.Pairwise (fun a b : QQSyncInterface.ApiMsg => b.timestamp ≤ a.timestamp)
        (QQSyncInterface.sortMsgsDesc l) := by
    intro l
    have ht : IsTotal QQSyncInterface.ApiMsg
        (fun a b => b.timestamp ≤ a.timestamp) :=
      ⟨fun a b => le_total b.timestamp a.timestamp⟩
    have htr : IsTrans QQSyncInterface.ApiMsg
        (fun a b => b.timestamp ≤ a.timestamp) :=
      ⟨fun _ _ _ h1 h2 => le_trans h2 h1⟩
    exact List.sorted_insertionSort _ l
  unfold QQSyncInterface.get_recent_messages at hapi
  rcases hres : getQQsyncPlugin env now st with e | ⟨p?, st1, b⟩
  · exact absurd hres (resolve_not_error env now st e)
  · rw [hres] at hapi
    cases p? with
    | none =>
      simp only [Except.ok.injEq, Prod.mk.injEq] at hapi
      rw [← hapi.1]
      exact List.Pairwise.nil
    | some plugin =>
      simp only [Except.ok.injEq, Prod.mk.injEq] at hapi
      cases hbody : QQSyncInterface.getRecentMessagesBody now plugin limit with
      | error e =>
        rw [← hapi.1]
        simp only [pyTryD, hbody]
        exact List.Pairwise.nil
      | ok v =>
        have hv : msgs = v := by
          rw [← hapi.1]
          simp [pyTryD, hbody]
        rw [hv]
        rcases QQSyncInterface.getRecentMessagesBody_cases now plugin limit v hbody
          with h1 | h1 | ⟨files, h1⟩
        · rw [h1]
          exact List.Pairwise.nil
        · rw [h1]
          exact List.pairwise_singleton _ _
        · rw [h1]
          have hsub : List.Sublist
              (pySlice (QQSyncInterface.sortMsgsDesc
                (QQSyncInterface.apiScanFiles limit files [])) limit)
              (QQSyncInterface.sortMsgsDesc
                (QQSyncInterface.apiScanFiles limit files [])) := by
            unfold pySlice
            split
            · exact List.take_sublist _ _
            · exact List.take_sublist _ _
          exact (hsorted _).sublist hsub

/-- C5 witness: the amended sortedness at a concrete unavailable
    runtime, whose result is the empty list. -/
theorem C5_amended_witness :
    List.Pairwise (fun a b : QQSyncInterface.ApiMsg =>
      b.timestamp ≤ a.timestamp) ([] : List QQSyncInterface.ApiMsg) :=
  C5_amended envUnavailable 100 ⟨none, 0⟩ 10 [] ⟨none, 100⟩ rfl
